import Mathlib

/-!
Verification development for the job-matching service.

This file gives a shallow embedding, in Lean 4, of the three core components
of the service and proves/refutes the frozen specification claims about them:

* the matching engine (`src/modules/matching/engine.py`),
* the resume segmenter (`src/modules/profile/text_preserve.py`),
* the job-description extractor (`src/modules/jd/parser.py`).

Conventions of the embedding:

* Python strings are Lean `String`s; `str.lower()` is modelled with
  `Char.toLower` (ASCII case folding, which is what all the vocabulary and
  token comparisons in the source exercise).
* Python `set`s of tokens are `Finset String`; `sorted(...)` is
  `Finset.sort (· ≤ ·)` over the lexicographic order on strings.
* Python float arithmetic in the score computation is idealised as exact
  rational arithmetic (`ℚ`), and Python 3 `round` (round half to even)
  is modelled by `pyRound` below.
* Fallible code is modelled in `Except Unit`: an uncaught Python exception
  is `Except.error ()`.
* The markup tree produced by BeautifulSoup is modelled abstractly by a
  `NormalizedDoc` record holding exactly the query results the extractor
  reads (structured-data scripts already JSON-decoded, heading/list texts,
  meta attribute values); the JSON payloads themselves are modelled by the
  `PyJson` type and all JSON-tree processing is embedded faithfully.
* All input lines fed to the segmenter come from `str.splitlines()` and so
  never contain a newline character; the regex models below implement the
  source patterns for such line inputs.
-/

/-! ### Python-style string primitives -/

/-- Python `\s` (ASCII whitespace as used by `re` on these inputs). -/
def pyIsSpace (c : Char) : Bool :=
  c = ' ' || c = '\t' || c = '\n' || c = '\r' || c = '\x0b' || c = '\x0c'

/-- Python `\w`: ASCII alphanumeric or underscore. -/
def pyIsWordChar (c : Char) : Bool :=
  c.isAlphanum || c = '_'

/-- Python `str.strip()` on a character list. -/
def pyStripL (l : List Char) : List Char :=
  ((l.dropWhile pyIsSpace).reverse.dropWhile pyIsSpace).reverse

/-- Python `str.strip()`. -/
def pyStrip (s : String) : String :=
  String.mk (pyStripL s.data)

/-- Python `str.strip(chars)` on a character list. -/
def pyStripCharsL (cs : List Char) (l : List Char) : List Char :=
  ((l.dropWhile (cs.contains ·)).reverse.dropWhile (cs.contains ·)).reverse

/-- Python `str.strip(chars)`. -/
def pyStripChars (cs : List Char) (s : String) : String :=
  String.mk (pyStripCharsL cs s.data)

/-- Python `str.lower()` (ASCII case folding). -/
def pyLower (s : String) : String :=
  String.mk (s.data.map Char.toLower)

/-- Python `str.upper()` (ASCII case folding). -/
def pyUpper (s : String) : String :=
  String.mk (s.data.map Char.toUpper)

/-- Case-insensitive character comparison. -/
def ciEq (a b : Char) : Bool :=
  a.toLower = b.toLower

/-- Whether `needle` occurs as a contiguous substring of `hay` (Python `in`). -/
def isSubstrL (needle hay : List Char) : Bool :=
  (List.range (hay.length + 1)).any (fun i => needle.isPrefixOf (hay.drop i))

/-- Python `needle in hay` for strings. -/
def pySubstr (needle hay : String) : Bool :=
  isSubstrL needle.data hay.data

/-- Case-insensitive substring test (a `re.search` of a plain word with `re.I`). -/
def ciSubstr (needle hay : String) : Bool :=
  isSubstrL (pyLower needle).data (pyLower hay).data

/-- Python `str.startswith` (core `String.startsWith` does not reduce in
the kernel, so a list-based version is used). -/
def pyStartsWith (s pre : String) : Bool :=
  pre.data.isPrefixOf s.data

/-- Python `str.endswith`. -/
def pyEndsWith (s post : String) : Bool :=
  post.data.isSuffixOf s.data

/-- Whether character `c` occurs in `s`. -/
def strHasChar (s : String) (c : Char) : Bool :=
  s.data.contains c

/-- Whether `pat` is a case-insensitive prefix of `l`. -/
def ciPrefix (pat : List Char) (l : List Char) : Bool :=
  match pat, l with
  | [], _ => true
  | _ :: _, [] => false
  | p :: ps, c :: cs => ciEq p c && ciPrefix ps cs

/-- Word-boundary test: position `i` of `l` starts a `\b`-delimited occurrence
of the (word-characters-only) word `w`, case-insensitively. -/
def wordAt (w : List Char) (l : List Char) (i : Nat) : Bool :=
  (decide (i = 0) || !pyIsWordChar (l.getD (i - 1) ' ')) &&
  ciPrefix w (l.drop i) &&
  (decide (i + w.length ≥ l.length) || !pyIsWordChar (l.getD (i + w.length) ' '))

/-- A `re.search` of `\b(w1|w2|...)\b` with `re.I`: some word of `ws` occurs
with word boundaries somewhere in `s`. -/
def containsWordCI (ws : List String) (s : String) : Bool :=
  (List.range (s.data.length + 1)).any (fun i => ws.any (fun w => wordAt w.data s.data i))

/-- Python `str.replace(old, new)` on character lists (all occurrences,
left to right, `old` nonempty in all uses here); written with a fuel
argument so the definition is structurally recursive (kernel-reducible) —
each step consumes at least one character, so `l.length` fuel is enough. -/
def pyReplaceFuel (old new : List Char) : Nat → List Char → List Char
  | 0, l => l
  | _ + 1, [] => []
  | fuel + 1, c :: cs =>
    if old ≠ [] ∧ old.isPrefixOf (c :: cs) then
      new ++ pyReplaceFuel old new fuel ((c :: cs).drop old.length)
    else
      c :: pyReplaceFuel old new fuel cs

def pyReplaceL (old new : List Char) (l : List Char) : List Char :=
  pyReplaceFuel old new l.length l

/-- Python `str.replace(old, new)`. -/
def pyReplace (old new s : String) : String :=
  String.mk (pyReplaceL old.data new.data s.data)

/-- Python `re.sub(r"\s+", " ", s)`: collapse every whitespace run to one
space (tracked with a previous-was-space flag to keep the recursion
structural). -/
def collapseWsAux : Bool → List Char → List Char
  | _, [] => []
  | prevSpace, c :: cs =>
    if pyIsSpace c then
      if prevSpace then collapseWsAux true cs
      else ' ' :: collapseWsAux true cs
    else c :: collapseWsAux false cs

def collapseWs (l : List Char) : List Char :=
  collapseWsAux false l

/-- Python `str.capitalize()`: first character upper-cased, rest lower-cased. -/
def pyCapitalize (s : String) : String :=
  match s.data with
  | [] => ""
  | c :: cs => String.mk (c.toUpper :: cs.map Char.toLower)

/-- Python `str.title()`: a character is upper-cased when the previous
character is not a letter, lower-cased otherwise. -/
def pyTitleL (prevAlpha : Bool) (l : List Char) : List Char :=
  match l with
  | [] => []
  | c :: cs =>
    (if prevAlpha then c.toLower else c.toUpper) :: pyTitleL c.isAlpha cs

/-- Python `str.title()`. -/
def pyTitle (s : String) : String :=
  String.mk (pyTitleL false s.data)

/-- First-seen-order exact deduplication, Python `list(dict.fromkeys(xs))`. -/
def dedupExact (xs : List String) : List String :=
  (xs.foldl (fun (acc : List String × List String) x =>
    if acc.2.contains x then acc else (acc.1 ++ [x], acc.2 ++ [x])) ([], [])).1

/-! ### Matching engine: data model (`src/modules/profile/schemas.py`,
`src/modules/jd/schemas.py`, `src/modules/matching/schemas.py`) -/

structure Course where
  code : Option String := none
  name : Option String := none
  topics : List String := []
  skills : List String := []
  tools : List String := []
deriving Repr, DecidableEq

structure Education where
  school : String
  degree : Option String := none
  major : Option String := none
  start : Option String := none
  «end» : Option String := none
deriving Repr, DecidableEq

structure Experience where
  company : String
  role : Option String := none
  start : Option String := none
  «end» : Option String := none
  bullets : List String := []
deriving Repr, DecidableEq

structure Profile where
  name : Option String := none
  contact : Option String := none
  location : Option String := none
  summary : Option String := none
  education : List Education := []
  experience : List Experience := []
  projects : List Experience := []
  skills : List String := []
  courses : List Course := []
  languages : List String := []
  target_roles : List String := []
  target_locations : List String := []
deriving Repr, DecidableEq

structure ParsedJD where
  title : Option String := none
  company : Option String := none
  location : Option String := none
  responsibilities : List String := []
  requirements : List String := []
  benefits : List String := []
  keywords : List String := []
deriving Repr, DecidableEq

structure MatchInput where
  profile : Profile
  jd : ParsedJD
deriving Repr, DecidableEq

structure MatchResult where
  score : ℤ := 0
  reasons : List String := []
  gaps : List String := []
  recommendations : List String := []
deriving Repr, DecidableEq

/-! ### Matching engine (`src/modules/matching/engine.py`) -/

/-- Character class of `WORD_RE = [A-Za-z0-9+#\.]+`. -/
def engineWordChar (c : Char) : Bool :=
  c.isAlphanum || c = '+' || c = '#' || c = '.'

/-- Maximal runs of `WORD_RE` characters: `WORD_RE.findall(s)`. -/
def findallWordsL (l : List Char) (acc : List Char) : List String :=
  match l with
  | [] => if acc = [] then [] else [String.mk acc.reverse]
  | c :: cs =>
    if engineWordChar c then
      findallWordsL cs (c :: acc)
    else if acc = [] then
      findallWordsL cs []
    else
      String.mk acc.reverse :: findallWordsL cs []

/-- Python `WORD_RE.findall(s)`. -/
def findallWords (s : String) : List String :=
  findallWordsL s.data []

/-- The `STOP_TOKENS` set. -/
def stopTokens : List String :=
  ["and", "with", "for", "the", "to", "of", "in", "on", "team", "work",
   "skills", "experience", "support", "manage", "management", "customer",
   "service", "services", "operations", "project", "projects",
   "responsibilities"]

/-- The `DISPLAY_MAP` table. -/
def displayMap : List (String × String) :=
  [("sql", "SQL"), ("aws", "AWS"), ("gcp", "GCP"), ("api", "API"),
   ("apis", "APIs"), ("ci", "CI"), ("cd", "CD"), ("ai", "AI"), ("ml", "ML"),
   ("llm", "LLM"), ("llms", "LLMs"), ("python", "Python"), ("java", "Java"),
   ("javascript", "JavaScript"), ("typescript", "TypeScript"),
   ("react", "React"), ("fastapi", "FastAPI")]

/-- Python `_tokens_from_texts`: word tokens of length `> 2` from the
lower-cased texts, as a set. -/
def tokensFromTexts (texts : List String) : Finset String :=
  (texts.flatMap (fun t => (findallWords (pyLower t)).filter (fun w => w.length > 2))).toFinset

/-- Python `_normalize_profile`: the profile token set `P`. -/
def normalizeProfile (p : Profile) : Finset String :=
  (p.skills.map pyLower).toFinset ∪
  (p.courses.flatMap (fun c =>
    c.skills.map pyLower ++ c.topics.map pyLower ++ c.tools.map pyLower)).toFinset ∪
  tokensFromTexts (p.experience.flatMap (·.bullets)) ∪
  tokensFromTexts (p.projects.flatMap (·.bullets))

/-- Python `_normalize_jd`: the JD keyword set `K` and requirement-token set `R`. -/
def normalizeJD (jd : ParsedJD) : Finset String × Finset String :=
  (((jd.keywords.filter (· ≠ "")).map pyLower).toFinset,
   tokensFromTexts (jd.requirements ++ jd.responsibilities))

/-- Python `_clean_token`. -/
def cleanToken (token : String) : Option String :=
  let t := pyLower (pyStrip token)
  if t = "" then none
  else if stopTokens.contains t then none
  else if t.data.any Char.isDigit then none
  else some t

/-- Python `_filter_tokens`. -/
def filterTokens (tokens : List String) : List String :=
  (tokens.foldl (fun (acc : List String × List String) tok =>
    match cleanToken tok with
    | none => acc
    | some ct => if acc.2.contains ct then acc else (acc.1 ++ [ct], acc.2 ++ [ct]))
    ([], [])).1

/-- Python `_display_token`. -/
def displayToken (token : String) : String :=
  match displayMap.lookup token with
  | some d => d
  | none => if token.length ≤ 3 then pyUpper token else pyTitle (pyReplace "_" " " token)

/-- Python `_format_tokens`. -/
def formatTokens (tokens : List String) (limit : Nat) : String :=
  let filtered := filterTokens tokens
  if filtered = [] then ""
  else
    let display := (filtered.take limit).map displayToken
    let suffix := if filtered.length > limit then "…" else ""
    String.intercalate ", " display ++ suffix

/-- Python `_collect_bullet_evidence`. -/
def collectBulletEvidence (tokens : Finset String) (input : MatchInput)
    (limit : Nat := 3) : List String :=
  if tokens = ∅ then []
  else
    let meaningful := (filterTokens (tokens.sort (· ≤ ·))).toFinset
    if meaningful = ∅ then []
    else
      let evidence := (input.profile.experience.foldl
        (fun (acc : List (String × String)) exp =>
          let role := pyStrip (exp.role.getD "")
          let company := pyStrip exp.company
          let joined := String.intercalate " / " ([role, company].filter (· ≠ ""))
          let pfx0 := if joined ≠ "" then joined
                      else if company ≠ "" then company else role
          let pfx := if pfx0 ≠ "" then pfx0 else "经历"
          exp.bullets.foldl (fun acc bullet =>
            if bullet = "" then acc
            else
              let low := pyLower bullet
              if !(meaningful.sort (· ≤ ·)).any (fun tok => pySubstr tok low) then acc
              else if acc.contains (pfx, bullet) then acc
              else acc ++ [(pfx, bullet)]) acc) [])
      (evidence.take limit).map (fun pb => pb.1 ++ " —— " ++ pb.2)

/-- Python 3 `round` to an integer: round half to even. -/
def pyRound (q : ℚ) : ℤ :=
  if q - ⌊q⌋ < 1/2 then ⌊q⌋
  else if 1/2 < q - ⌊q⌋ then ⌊q⌋ + 1
  else if Even ⌊q⌋ then ⌊q⌋ else ⌊q⌋ + 1

/-- The recommendation tip table of `match`. -/
def tipTable : List (String × String) :=
  [("fastapi", "强调 FastAPI/API 设计与测试经验，包括性能或安全改进。"),
   ("c++", "列出使用 C++ 的具体项目，说明标准版本及性能优化成果。"),
   ("python", "补充 Python 生态（异步、数据处理、自动化脚本）方面的示例。"),
   ("aws", "如有云经验，可添加服务栈（S3/Lambda/EC2 等）与成果。")]

/-- The location-match reason block of `match` (lines 182-185 of
`engine.py`): Python truthiness of the two `Optional[str]` fields, then a
lower-cased substring test. -/
def locationReason (input : MatchInput) : List String :=
  match input.jd.location, input.profile.location with
  | some jl, some pl =>
    if jl ≠ "" ∧ pl ≠ "" ∧ pySubstr (pyLower jl) (pyLower pl) then
      ["地点匹配：目标岗位在 " ++ jl]
    else []
  | _, _ => []

/-- Python `match(input)` from `src/modules/matching/engine.py` (named
`matchEngine` here because `match` is a Lean keyword). Float arithmetic in
the score is idealised as exact rational arithmetic. -/
def matchEngine (input : MatchInput) : MatchResult :=
  let prof := normalizeProfile input.profile
  let jdKey := (normalizeJD input.jd).1
  let jdReq := (normalizeJD input.jd).2
  let hitKey := (jdKey ∩ prof).sort (· ≤ ·)
  let hitReq := (jdReq ∩ prof).sort (· ≤ ·)
  let displayHitKey := filterTokens hitKey
  let displayHitReq := filterTokens hitReq
  let keyFrac : ℚ := if jdKey ≠ ∅ then (hitKey.length : ℚ) / (max 1 jdKey.card : ℚ) else 0
  let reqFrac : ℚ := if jdReq ≠ ∅ then (hitReq.length : ℚ) / (max 1 jdReq.card : ℚ) else 0
  let score : ℤ := pyRound (100 * (6/10 * keyFrac + 4/10 * reqFrac))
  let reasons : List String :=
    (if displayHitKey ≠ [] then
      ["技能匹配：" ++ formatTokens displayHitKey 6] else []) ++
    ((collectBulletEvidence (displayHitKey.toFinset ∪ displayHitReq.toFinset) input).map
      (fun item => "相关经历：" ++ item)) ++
    locationReason input
  let gapsKey := (jdKey \ prof).sort (· ≤ ·)
  let gapsReq := ((jdReq \ prof).filter (fun tok => !stopTokens.contains tok)).sort (· ≤ ·)
  let displayGapsKey := filterTokens gapsKey
  let displayGapsReq := filterTokens gapsReq
  let gaps : List String :=
    (if displayGapsKey ≠ [] then
      ["缺少关键词：" ++ formatTokens displayGapsKey 5] else []) ++
    (if displayGapsReq ≠ [] then
      ["缺少职责覆盖：" ++ formatTokens displayGapsReq 8] else [])
  let recs : List String :=
    (if displayGapsKey ≠ [] then
      ["建议补充与 " ++ formatTokens displayGapsKey 5 ++ " 相关的成果或项目细节。"] else []) ++
    (if displayGapsReq ≠ [] then
      ["建议针对岗位职责补充具体案例，突出行动动词与量化指标。"] else []) ++
    (tipTable.filterMap (fun kt =>
      if kt.1 ∈ jdKey ∪ jdReq ∧ kt.1 ∉ prof then some kt.2 else none))
  { score := score, reasons := reasons, gaps := gaps, recommendations := recs }

/-! ### Lemmas about `pyRound` and the score -/

lemma floor_le_pyRound (q : ℚ) : ⌊q⌋ ≤ pyRound q := by
  unfold pyRound
  split_ifs <;> omega

lemma pyRound_le_floor_add_one (q : ℚ) : pyRound q ≤ ⌊q⌋ + 1 := by
  unfold pyRound
  split_ifs <;> omega

lemma pyRound_mono {x y : ℚ} (h : x ≤ y) : pyRound x ≤ pyRound y := by
  have hf : ⌊x⌋ ≤ ⌊y⌋ := Int.floor_le_floor h
  rcases eq_or_lt_of_le hf with heq | hlt
  · unfold pyRound
    rw [← heq]
    have hxy : x - ⌊x⌋ ≤ y - ⌊x⌋ := by linarith
    split_ifs <;> first | omega | linarith
  · have h1 := pyRound_le_floor_add_one x
    have h2 := floor_le_pyRound y
    omega

lemma pyRound_intCast (n : ℤ) : pyRound (n : ℚ) = n := by
  unfold pyRound
  simp [Int.floor_intCast]

lemma pyRound_bounds {q : ℚ} (h0 : 0 ≤ q) (h100 : q ≤ 100) :
    0 ≤ pyRound q ∧ pyRound q ≤ 100 := by
  constructor
  · have := pyRound_mono h0
    rwa [show ((0 : ℚ)) = ((0 : ℤ) : ℚ) by norm_num, pyRound_intCast] at this
  · have := pyRound_mono h100
    rwa [show ((100 : ℚ)) = ((100 : ℤ) : ℚ) by norm_num, pyRound_intCast] at this

/-- The score of `matchEngine`, written as the raw-overlap formula (the
branch on emptiness of `K`/`R` in the code is value-irrelevant). -/
lemma matchEngine_score_eq (input : MatchInput) :
    (matchEngine input).score =
      pyRound (100 * (6/10 *
          ((((normalizeJD input.jd).1 ∩ normalizeProfile input.profile).card : ℚ) /
            (max 1 (normalizeJD input.jd).1.card : ℚ))
        + 4/10 *
          ((((normalizeJD input.jd).2 ∩ normalizeProfile input.profile).card : ℚ) /
            (max 1 (normalizeJD input.jd).2.card : ℚ)))) := by
  have hscore : (matchEngine input).score =
      pyRound (100 * (6/10 *
          (if (normalizeJD input.jd).1 ≠ ∅ then
            ((((normalizeJD input.jd).1 ∩ normalizeProfile input.profile).sort (· ≤ ·)).length : ℚ) /
              (max 1 (normalizeJD input.jd).1.card : ℚ) else 0)
        + 4/10 *
          (if (normalizeJD input.jd).2 ≠ ∅ then
            ((((normalizeJD input.jd).2 ∩ normalizeProfile input.profile).sort (· ≤ ·)).length : ℚ) /
              (max 1 (normalizeJD input.jd).2.card : ℚ) else 0))) := rfl
  rw [hscore]
  congr 1
  have hfix : ∀ (S : Finset String),
      (if S ≠ ∅ then
        (((S ∩ normalizeProfile input.profile).sort (· ≤ ·)).length : ℚ) / (max 1 S.card : ℚ)
       else 0)
      = ((S ∩ normalizeProfile input.profile).card : ℚ) / (max 1 S.card : ℚ) := by
    intro S
    by_cases h : S = ∅
    · simp [h]
    · simp [h, Finset.length_sort]
  rw [hfix, hfix]

lemma score_arg_bounds (input : MatchInput) :
    0 ≤ 100 * (6/10 *
          ((((normalizeJD input.jd).1 ∩ normalizeProfile input.profile).card : ℚ) /
            (max 1 (normalizeJD input.jd).1.card : ℚ))
        + 4/10 *
          ((((normalizeJD input.jd).2 ∩ normalizeProfile input.profile).card : ℚ) /
            (max 1 (normalizeJD input.jd).2.card : ℚ))) ∧
    100 * (6/10 *
          ((((normalizeJD input.jd).1 ∩ normalizeProfile input.profile).card : ℚ) /
            (max 1 (normalizeJD input.jd).1.card : ℚ))
        + 4/10 *
          ((((normalizeJD input.jd).2 ∩ normalizeProfile input.profile).card : ℚ) /
            (max 1 (normalizeJD input.jd).2.card : ℚ))) ≤ 100 := by
  have hratio : ∀ (S P : Finset String),
      0 ≤ ((S ∩ P).card : ℚ) / (max 1 S.card : ℚ) ∧
      ((S ∩ P).card : ℚ) / (max 1 S.card : ℚ) ≤ 1 := by
    intro S P
    have hpos : (0 : ℚ) < (max 1 S.card : ℚ) := by positivity
    constructor
    · positivity
    · rw [div_le_one hpos]
      have hcard : (S ∩ P).card ≤ max 1 S.card :=
        le_trans (Finset.card_le_card (Finset.inter_subset_left)) (le_max_right 1 S.card)
      exact_mod_cast hcard
  obtain ⟨ha0, ha1⟩ := hratio (normalizeJD input.jd).1 (normalizeProfile input.profile)
  obtain ⟨hb0, hb1⟩ := hratio (normalizeJD input.jd).2 (normalizeProfile input.profile)
  constructor <;> nlinarith

/-- C1: for every (profile, jd) pair, the match score equals
round(100 × (0.6 × |HK|/max(1,|K|) + 0.4 × |HR|/max(1,|R|))) computed from
the raw hit sets HK = K ∩ P and HR = R ∩ P (no stop-word or numeric-token
filtering enters the formula), and the score is an integer in [0, 100]. -/
theorem matching_score_formula_and_bounds (input : MatchInput) :
    (matchEngine input).score =
      pyRound (100 * (6/10 *
          ((((normalizeJD input.jd).1 ∩ normalizeProfile input.profile).card : ℚ) /
            (max 1 (normalizeJD input.jd).1.card : ℚ))
        + 4/10 *
          ((((normalizeJD input.jd).2 ∩ normalizeProfile input.profile).card : ℚ) /
            (max 1 (normalizeJD input.jd).2.card : ℚ))))
    ∧ 0 ≤ (matchEngine input).score ∧ (matchEngine input).score ≤ 100 := by
  obtain ⟨h0, h100⟩ := score_arg_bounds input
  refine ⟨matchEngine_score_eq input, ?_, ?_⟩
  · rw [matchEngine_score_eq input]
    exact (pyRound_bounds h0 h100).1
  · rw [matchEngine_score_eq input]
    exact (pyRound_bounds h0 h100).2

lemma normalizeProfile_append_skill (p : Profile) (k : String) :
    normalizeProfile p ⊆ normalizeProfile { p with skills := p.skills ++ [k] } := by
  unfold normalizeProfile
  simp only [List.map_append, List.toFinset_append]
  intro x hx
  simp only [Finset.mem_union] at hx ⊢
  tauto

/-- C4: for every (profile, jd) pair and every keyword `k` of the JD,
appending `k` to the profile's skills never decreases the match score. -/
theorem matching_score_monotone_in_skills (input : MatchInput) (k : String)
    (_hk : k ∈ input.jd.keywords) :
    (matchEngine input).score ≤
      (matchEngine { input with
        profile := { input.profile with skills := input.profile.skills ++ [k] } }).score := by
  rw [matchEngine_score_eq, matchEngine_score_eq]
  apply pyRound_mono
  have hjd : ({ input with
      profile := { input.profile with skills := input.profile.skills ++ [k] } } : MatchInput).jd
      = input.jd := rfl
  rw [hjd]
  have hsub := normalizeProfile_append_skill input.profile k
  have hcard1 : (((normalizeJD input.jd).1 ∩ normalizeProfile input.profile).card : ℚ)
      ≤ (((normalizeJD input.jd).1 ∩
          normalizeProfile { input.profile with skills := input.profile.skills ++ [k] }).card : ℚ) := by
    exact_mod_cast Finset.card_le_card
      (Finset.inter_subset_inter (Finset.Subset.refl _) hsub)
  have hcard2 : (((normalizeJD input.jd).2 ∩ normalizeProfile input.profile).card : ℚ)
      ≤ (((normalizeJD input.jd).2 ∩
          normalizeProfile { input.profile with skills := input.profile.skills ++ [k] }).card : ℚ) := by
    exact_mod_cast Finset.card_le_card
      (Finset.inter_subset_inter (Finset.Subset.refl _) hsub)
  gcongr

/-- Sample inputs used by the witness theorems below. -/
def sampleInput4 : MatchInput :=
  { profile := { skills := [] },
    jd := { keywords := ["python"], requirements := ["Python required"] } }

def sampleInput10 : MatchInput :=
  { profile := { skills := [], location := some "Sydney NSW" },
    jd := { keywords := [], location := some "Sydney" } }

theorem matching_score_monotone_in_skills_witness :
    "python" ∈ sampleInput4.jd.keywords ∧
    (matchEngine sampleInput4).score ≤
      (matchEngine { sampleInput4 with
        profile := { sampleInput4.profile with
          skills := sampleInput4.profile.skills ++ ["python"] } }).score :=
  ⟨by decide, matching_score_monotone_in_skills sampleInput4 "python" (by decide)⟩

/-- C10: whenever both location fields are non-empty and the lower-cased JD
location is a substring of the lower-cased profile location, the
location-match reason line is in the reasons; and the location fields never
influence the numeric score. -/
theorem matching_location_reason_and_score_ignores_location (input : MatchInput) :
    (∀ jl pl, input.jd.location = some jl → input.profile.location = some pl →
      jl ≠ "" → pl ≠ "" → pySubstr (pyLower jl) (pyLower pl) = true →
      ("地点匹配：目标岗位在 " ++ jl) ∈ (matchEngine input).reasons)
    ∧ ∀ (l₁ l₂ : Option String),
      (matchEngine { profile := { input.profile with location := l₁ },
                     jd := { input.jd with location := l₂ } }).score
        = (matchEngine input).score := by
  constructor
  · intro jl pl hjl hpl h1 h2 h3
    obtain ⟨A, hA⟩ : ∃ A, (matchEngine input).reasons = A ++ locationReason input :=
      ⟨_, rfl⟩
    have hloc : locationReason input = ["地点匹配：目标岗位在 " ++ jl] := by
      unfold locationReason
      rw [hjl, hpl]
      simp [h1, h2, h3]
    rw [hA, hloc]
    exact List.mem_append_right _ (List.mem_singleton_self _)
  · intro l₁ l₂
    rfl

theorem matching_location_witness :
    ("地点匹配：目标岗位在 " ++ "Sydney") ∈ (matchEngine sampleInput10).reasons ∧
    (matchEngine { profile := { sampleInput10.profile with location := none },
                   jd := { sampleInput10.jd with location := none } }).score
      = (matchEngine sampleInput10).score :=
  ⟨(matching_location_reason_and_score_ignores_location sampleInput10).1
      "Sydney" "Sydney NSW" rfl rfl (by decide) (by decide) (by decide),
   (matching_location_reason_and_score_ignores_location sampleInput10).2 none none⟩

/-! ### Resume segmenter (`src/modules/profile/text_preserve.py`)

Only the section-assignment loop and the education / experience / projects
reconstruction passes are embedded (the parts the claims are about); inputs
are the text lines, which come from `str.splitlines()` and therefore contain
no newline character. -/

/-- The dash variants normalised to `-` by `date_range_from_line`. -/
def dashVariant (c : Char) : Bool :=
  c ∈ ['‐', '‑', '‒', '–', '—', '―', '−']

def normDashChar (c : Char) : Char :=
  if dashVariant c then '-' else c

/-- Four decimal digits at position `i`. -/
def digits4At (l : List Char) (i : Nat) : Bool :=
  decide (i + 4 ≤ l.length) && ((l.drop i).take 4).all Char.isDigit

def boundaryBefore (l : List Char) (i : Nat) : Bool :=
  decide (i = 0) || !pyIsWordChar (l.getD (i - 1) ' ')

def boundaryAfterPos (l : List Char) (i : Nat) : Bool :=
  decide (i ≥ l.length) || !pyIsWordChar (l.getD i ' ')

/-- Position after the whitespace run starting at `i` (a greedy `\s*`). -/
def skipWs (l : List Char) (i : Nat) : Nat :=
  i + ((l.drop i).takeWhile pyIsSpace).length

/-- Separator class `[-~–—to至到]` of the year-range grammar (`re.I`, after
dash normalisation). -/
def sepClassYear (c : Char) : Bool :=
  c ∈ ['-', '~', '–', '—', 't', 'T', 'o', 'O', '至', '到']

/-- Separator class `[-~–—]` of the month grammars. -/
def sepClassMonth (c : Char) : Bool :=
  c ∈ ['-', '~', '–', '—']

/-- The alternation `(\d{4}|Present|Current)\b` at position `k`; returns the
matched text and the end position (alternatives tried in order). -/
def matchYearOrPresent (l : List Char) (k : Nat) : Option (String × Nat) :=
  if digits4At l k && boundaryAfterPos l (k + 4) then
    some (String.mk ((l.drop k).take 4), k + 4)
  else if ciPrefix "Present".data (l.drop k) && boundaryAfterPos l (k + 7) then
    some (String.mk ((l.drop k).take 7), k + 7)
  else if ciPrefix "Current".data (l.drop k) && boundaryAfterPos l (k + 7) then
    some (String.mk ((l.drop k).take 7), k + 7)
  else
    none

/-- Search for `\b(\d{4})\b\s*[-~–—to至到]{1,2}\s*(\d{4}|Present|Current)\b`
(`re.I`): greedy `{1,2}` tries a two-character separator first. Returns the
two captured groups. -/
def searchDate1 (l : List Char) : Option (String × String) :=
  (List.range (l.length + 1)).findSome? (fun i =>
    if boundaryBefore l i && digits4At l i && boundaryAfterPos l (i + 4) then
      let j := skipWs l (i + 4)
      let year1 := String.mk ((l.drop i).take 4)
      let cont := fun (k : Nat) =>
        (matchYearOrPresent l (skipWs l k)).map (fun t => (year1, t.1))
      if decide (j + 2 ≤ l.length) && sepClassYear (l.getD j ' ')
          && sepClassYear (l.getD (j + 1) ' ') then
        match cont (j + 2) with
        | some r => some r
        | none =>
          if decide (j + 1 ≤ l.length) && sepClassYear (l.getD j ' ') then cont (j + 1)
          else none
      else if decide (j + 1 ≤ l.length) && sepClassYear (l.getD j ' ') then cont (j + 1)
      else none
    else none)

/-- The month alternation `(?:Jan|Feb|...|Dec)[a-z]*` (`re.I`): the month
prefixes, in source order. -/
def monthNames : List String :=
  ["Jan", "Feb", "Mar", "Apr", "May", "Jun", "Jul", "Aug", "Sep", "Sept",
   "Oct", "Nov", "Dec"]

/-- A `MONTH_RE` token at position `i` (no boundary requirement): a month
prefix followed by the maximal run of ASCII letters; returns the end. -/
def monthTokenEnd (l : List Char) (i : Nat) : Option Nat :=
  if monthNames.any (fun m => ciPrefix m.data (l.drop i)) then
    some (i + ((l.drop i).takeWhile Char.isAlpha).length)
  else none

/-- Search for
`\b(MONTH)\s+(\d{4})\s*[-~–—]\s*(MONTH)\s+(\d{4}|Present|Current)\b` (`re.I`).
Returns the four captured groups. -/
def searchDate2 (l : List Char) : Option (String × String × String × String) :=
  (List.range (l.length + 1)).findSome? (fun i =>
    if !boundaryBefore l i then none
    else
      match monthTokenEnd l i with
      | none => none
      | some e1 =>
        let m1 := String.mk ((l.drop i).take (e1 - i))
        let w1 := ((l.drop e1).takeWhile pyIsSpace).length
        if w1 = 0 then none
        else
          let j2 := e1 + w1
          if !digits4At l j2 then none
          else
            let y1 := String.mk ((l.drop j2).take 4)
            let j3 := skipWs l (j2 + 4)
            if !(decide (j3 < l.length) && sepClassMonth (l.getD j3 ' ')) then none
            else
              let j4 := skipWs l (j3 + 1)
              match monthTokenEnd l j4 with
              | none => none
              | some e2 =>
                let m2 := String.mk ((l.drop j4).take (e2 - j4))
                let w2 := ((l.drop e2).takeWhile pyIsSpace).length
                if w2 = 0 then none
                else
                  (matchYearOrPresent l (e2 + w2)).map (fun t => (m1, y1, m2, t.1)))

/-- Search for `\b(\d{4})\b.*\((?:\s*)(MONTH)\s*[-~–—]\s*(MONTH)(?:\s*)\)`
(`re.I`): the greedy `.*` makes the engine take the last completable `(`;
`.` does not cross a newline. Returns year, first month, second month. -/
def searchDate3 (l : List Char) : Option (String × String × String) :=
  (List.range (l.length + 1)).findSome? (fun i =>
    if boundaryBefore l i && digits4At l i && boundaryAfterPos l (i + 4) then
      let year := String.mk ((l.drop i).take 4)
      ((List.range l.length).reverse.findSome? (fun k =>
        if decide (k ≥ i + 4) && decide (l.getD k ' ' = '(')
            && ((l.drop (i + 4)).take (k - (i + 4))).all (· ≠ '\n') then
          let j := skipWs l (k + 1)
          match monthTokenEnd l j with
          | none => none
          | some e1 =>
            let m1 := String.mk ((l.drop j).take (e1 - j))
            let j2 := skipWs l e1
            if !(decide (j2 < l.length) && sepClassMonth (l.getD j2 ' ')) then none
            else
              let j3 := skipWs l (j2 + 1)
              match monthTokenEnd l j3 with
              | none => none
              | some e2 =>
                let m2 := String.mk ((l.drop j3).take (e2 - j3))
                let j4 := skipWs l e2
                if decide (j4 < l.length) && decide (l.getD j4 ' ' = ')') then
                  some (m1, m2)
                else none
        else none)).map (fun p => (year, p.1, p.2))
    else none)

/-- Python `is_present_token`. -/
def isPresentToken (s : String) : Bool :=
  pyLower (pyStrip s) = "present" || pyLower (pyStrip s) = "current"

/-- Python `is_year_token`: `re.fullmatch(r"\d{4}", s)`. -/
def isYearToken (s : String) : Bool :=
  decide (s.data.length = 4) && s.data.all Char.isDigit

/-- Python `date_range_from_line`. -/
def dateRangeFromLine (s : String) : Option (Option String × Option String) :=
  let t0 := pyStrip s
  if t0 = "" then none
  else
    let t := t0.data.map normDashChar
    match searchDate1 t with
    | some (a, b) =>
      some (some a, some (if isPresentToken b then "Present" else b))
    | none =>
    match searchDate2 t with
    | some (m1, y1, m2, g4) =>
      some (some (m1 ++ " " ++ y1),
            some (if isPresentToken g4 then "Present" else m2 ++ " " ++ g4))
    | none =>
    match searchDate3 t with
    | some (year, m1, m2) =>
      some (some (m1 ++ " " ++ year), some (m2 ++ " " ++ year))
    | none =>
      if decide (t.length = 4) && t.all Char.isDigit then
        some (some (String.mk t), none)
      else none

/-- Python truthiness of an `Optional[str]` dictionary value. -/
def pyTruthyOpt (o : Option String) : Bool :=
  match o with
  | some s => s ≠ ""
  | none => false

/-- Python `any(dr)` over the date tuple. -/
def drAny (dr : Option String × Option String) : Bool :=
  pyTruthyOpt dr.1 || pyTruthyOpt dr.2

/-- Python `looks_like_school`. -/
def looksLikeSchool (s : String) : Bool :=
  (["university", "college", "institute", "up education", "high school",
    "school"].any (fun k => pySubstr k (pyLower s)))
  && s.data.any Char.isAlpha

/-- Python `looks_like_degree`. -/
def looksLikeDegree (s : String) : Bool :=
  pyStartsWith (pyLower s) "master of" || pyStartsWith (pyLower s) "bachelor of"
  || pyStartsWith (pyLower s) "foundation program"
  || pySubstr "graduation certificate" (pyLower s)

/-- Python `re.search(r"\((.+?)\)", s)`: leftmost `(` from which a `)` at
distance at least two exists; the lazy group is the text up to the first
such `)`; `.` does not cross a newline. Returns the group. -/
def searchParenGroup (l : List Char) : Option String :=
  (List.range l.length).findSome? (fun i =>
    if l.getD i ' ' = '(' then
      ((List.range l.length).findSome? (fun j =>
        if decide (j ≥ i + 2) && decide (l.getD j ' ' = ')')
            && ((l.drop (i + 1)).take (j - (i + 1))).all (· ≠ '\n') then
          some (String.mk ((l.drop (i + 1)).take (j - (i + 1))))
        else none))
    else none)

/-- Python `split_degree_major`. -/
def splitDegreeMajor (s : String) : Option String × Option String :=
  let s1 := pyStrip s
  let major := (searchParenGroup s1.data).map pyStrip
  let degree :=
    pyStripChars [',', ';', '.']
      (pyStrip (String.mk (s1.data.takeWhile (· ≠ '('))))
  ((if degree = "" then none else some degree),
   (match major with
    | some m => if m = "" then none else some m
    | none => none))

/-- The role keywords of the "Role, Company" heuristic. -/
def roleKeywords : List String :=
  ["intern", "engineer", "developer", "volunteer", "assistant", "analyst",
   "manager", "research", "associate", "lead", "specialist", "consultant"]

/-- Python `re.match(r"^([^,]{2,}?),\s*(.{3,})$", ln)`: the first comma must
be at index at least 2; the greedy `\s*` backtracks until the remainder has
at least three characters (none a newline). Returns the two groups. -/
def roleFirstGroups (s : String) : Option (String × String) :=
  let l := s.data
  match l.findIdx? (· = ',') with
  | none => none
  | some c =>
    if c < 2 then none
    else
      let g1 := String.mk (l.take c)
      let rest := l.drop (c + 1)
      let w := (rest.takeWhile pyIsSpace).length
      ((List.range (w + 1)).reverse.findSome? (fun k =>
        let body := rest.drop k
        if decide (body.length ≥ 3) && body.all (· ≠ '\n') then
          some (g1, String.mk body)
        else none))

/-- The "Role, Company" pattern: the regex above, with a role keyword
(word-bounded, case-insensitive) in the left group. -/
def roleFirstLine (s : String) : Option (String × String) :=
  match roleFirstGroups s with
  | some (g1, g2) => if containsWordCI roleKeywords g1 then some (g1, g2) else none
  | none => none

/-- The bullet-glyph class of `BULLET_LEAD`. -/
def bulletClass (c : Char) : Bool :=
  c ∈ ['-', '•', '·', '*', '—', '–', '‣', '▪', '●', '◆']

/-- Length of a `BULLET_LEAD` match (`^\s*[glyphs]+\s+`) at the start of the
line, when there is one. -/
def bulletLeadLen (l : List Char) : Option Nat :=
  let a := (l.takeWhile pyIsSpace).length
  let b := ((l.drop a).takeWhile bulletClass).length
  if b = 0 then none
  else
    let c := ((l.drop (a + b)).takeWhile pyIsSpace).length
    if c = 0 then none else some (a + b + c)

/-- Python `is_bullet`. -/
def isBullet (s : String) : Bool :=
  (bulletLeadLen s.data).isSome

/-- Python `clean_bullet`: drop the lead (if any), then strip. -/
def cleanBullet (s : String) : String :=
  pyStrip (String.mk (s.data.drop ((bulletLeadLen s.data).getD 0)))

/-- The class stripped by `norm_header` at the start (`^[\-•·\*—–\s]+`). -/
def headerTrimClass (c : Char) : Bool :=
  c ∈ ['-', '•', '·', '*', '—', '–'] || pyIsSpace c

/-- Python `norm_header`. -/
def normHeader (s : String) : String :=
  let s2 := pyStrip (String.mk (s.data.dropWhile headerTrimClass))
  let s3 := pyLower (pyStripChars [':', '：', ';'] s2)
  String.mk (collapseWs s3.data)

/-- The `hdr_alias` table (insertion order as in the source). -/
def hdrAliases : List (String × List String) :=
  [("education", ["education"]),
   ("experience", ["experience", "work experience", "employment history"]),
   ("projects", ["projects", "project"]),
   ("skills", ["skills", "skill"]),
   ("languages", ["languages", "language"]),
   ("certifications", ["certifications", "certificates"])]

/-- Python `which_section`. -/
def whichSection (s : String) : Option String :=
  let v := normHeader s
  hdrAliases.findSome? (fun ka =>
    if v = ka.1 ∨ ka.2.contains v ∨ pyStartsWith v (ka.1 ++ " ") then some ka.1
    else none)

/-- The alternatives of `header_re`, in source order; multi-word entries
stand for `word1\s+word2`. -/
def headerAlts : List (List String) :=
  [["education"], ["experience"], ["work", "experience"],
   ["employment", "history"], ["projects"], ["skills"], ["languages"],
   ["certifications"], ["certificates"]]

/-- Match one alternative at the start of `l` (case-insensitive, `\s+`
between its words); returns the end position. -/
def matchAltAt (ws : List String) (l : List Char) (i : Nat) : Option Nat :=
  match ws with
  | [] => some i
  | w :: rest =>
    if ciPrefix w.data (l.drop i) then
      let e := i + w.length
      match rest with
      | [] => some e
      | _ =>
        let run := ((l.drop e).takeWhile pyIsSpace).length
        if run = 0 then none else matchAltAt rest l (e + run)
    else none

/-- Python `header_re.match(ln)`: returns the matched header text and the
`rest` group. -/
def matchHeaderRe (s : String) : Option (String × String) :=
  let l := s.data
  headerAlts.findSome? (fun alt =>
    match matchAltAt alt l 0 with
    | none => none
    | some e =>
      let h := String.mk (l.take e)
      let j := skipWs l e
      let j2 := if decide (j < l.length) && (l.getD j ' ' = ':' || l.getD j ' ' = '：')
                then j + 1 else j
      let j3 := skipWs l j2
      let rest := l.drop j3
      if rest.all (· ≠ '\n') then some (h, String.mk rest) else none)

/-- Line buckets of the section-assignment loop. -/
structure Buckets where
  education : List String := []
  experience : List String := []
  projects : List String := []
  skills : List String := []
  languages : List String := []
  certifications : List String := []
  preamble : List String := []
deriving Repr, DecidableEq

def bucketKeys : List String :=
  ["education", "experience", "projects", "skills", "languages", "certifications"]

def bucketAppend (b : Buckets) (key : String) (ln : String) : Buckets :=
  if key = "education" then { b with education := b.education ++ [ln] }
  else if key = "experience" then { b with experience := b.experience ++ [ln] }
  else if key = "projects" then { b with projects := b.projects ++ [ln] }
  else if key = "skills" then { b with skills := b.skills ++ [ln] }
  else if key = "languages" then { b with languages := b.languages ++ [ln] }
  else if key = "certifications" then { b with certifications := b.certifications ++ [ln] }
  else b

/-- The section-assignment loop of `parse_text_preserve` (lines 48-69):
header lines switch the current bucket; other lines go to the current
bucket, or to the preamble before the first header. -/
def assignSections (lines : List String) : Buckets :=
  (lines.foldl (fun (st : Option String × Buckets) ln =>
    let current := st.1
    let b := st.2
    match matchHeaderRe ln with
    | some (hText, rest) =>
      let h := pyReplace "work experience" "experience" (pyLower hText)
      let cur' := if bucketKeys.contains h then some h else whichSection h
      let rest' := pyStrip rest
      match cur' with
      | some key =>
        if rest' ≠ "" then (cur', bucketAppend b key rest') else (cur', b)
      | none => (cur', b)
    | none =>
      match whichSection ln with
      | some sec => (some sec, b)
      | none =>
        match current with
        | some key => (current, bucketAppend b key ln)
        | none => (current, { b with preamble := b.preamble ++ [ln] })) (none, {})).2

/-- Python `is_header_line`. -/
def isHeaderLine (s : String) : Bool :=
  bucketKeys.contains (normHeader s)

/-- The bracket-pair merge applied to the education and projects buckets:
a line holding an unmatched `(` is joined with the following line when that
line ends with `)`. Written with fuel (each step consumes at least one
line) so the recursion is structural and kernel-reducible. -/
def mergeBracketFuel : Nat → List String → List String
  | 0, l => l.map pyStrip
  | _ + 1, [] => []
  | _ + 1, [x] => [pyStrip x]
  | fuel + 1, x :: y :: rest =>
    let xs := pyStrip x
    let ys := pyStrip y
    if strHasChar xs '(' ∧ ¬ strHasChar xs ')' ∧ pyEndsWith ys ")" then
      (xs ++ " " ++ ys) :: mergeBracketFuel fuel rest
    else
      xs :: mergeBracketFuel fuel (y :: rest)

def mergeBracketLines (bl : List String) : List String :=
  mergeBracketFuel bl.length bl

/-- An education record under construction (dictionary of the source;
`none` is Python `None`). -/
structure EduDict where
  school : Option String := none
  degree : Option String := none
  major : Option String := none
  start : Option String := none
  «end» : Option String := none
deriving Repr, DecidableEq

/-- An experience record under construction (dictionary of the source). -/
structure ExpDict where
  company : Option String := none
  role : Option String := none
  start : Option String := none
  «end» : Option String := none
  bullets : List String := []
deriving Repr, DecidableEq

/-- Python `commit_current_edu`'s guard: any field truthy. -/
def eduDictTruthy (r : EduDict) : Bool :=
  pyTruthyOpt r.school || pyTruthyOpt r.degree || pyTruthyOpt r.major ||
  pyTruthyOpt r.start || pyTruthyOpt r.«end»

/-- Python `commit_current_edu` applied to the state when the open record
has a truthy school: returns (updated records list, remaining open record). -/
def eduCommitIfSchool (cur : Option EduDict) (edu : List EduDict) :
    List EduDict × Option EduDict :=
  match cur with
  | some c =>
    if pyTruthyOpt c.school then
      (if eduDictTruthy c then edu ++ [c] else edu, none)
    else (edu, some c)
  | none => (edu, none)

/-- The role-first and school branches of the education loop (lines 262-273
of the source), reached when neither the degree nor the date branch fired. -/
def eduStepTail (st : Option EduDict × List EduDict × List ExpDict) (ln : String) :
    Option EduDict × List EduDict × List ExpDict :=
  let cur := st.1
  let edu := st.2.1
  let moved := st.2.2
  match roleFirstLine ln with
  | some (g1, g2) =>
    (cur, edu,
     moved ++ [{ company := some (pyStrip g2), role := some (pyStrip g1),
                 start := none, «end» := none, bullets := [] }])
  | none =>
    if looksLikeSchool ln then
      let committed := eduCommitIfSchool cur edu
      let c := committed.2.getD {}
      (some { c with school := some ln }, committed.1, moved)
    else st

/-- One step of the education reconstruction loop (lines 238-273 of the
source), over state (open record, committed records, records moved to
experience). -/
def eduStep (st : Option EduDict × List EduDict × List ExpDict) (ln : String) :
    Option EduDict × List EduDict × List ExpDict :=
  let cur := st.1
  let edu := st.2.1
  let moved := st.2.2
  if ln = "" || isHeaderLine ln then st
  else if looksLikeDegree ln then
    let c := cur.getD {}
    let dm := splitDegreeMajor ln
    let c := if pyTruthyOpt dm.1 && !pyTruthyOpt c.degree then { c with degree := dm.1 } else c
    let c := if pyTruthyOpt dm.2 && !pyTruthyOpt c.major then { c with major := dm.2 } else c
    (some c, edu, moved)
  else
    match dateRangeFromLine ln with
    | some dr =>
      if drAny dr then
        let committed := eduCommitIfSchool cur edu
        let c := committed.2.getD {}
        let c := if pyTruthyOpt dr.1 && !pyTruthyOpt c.start then { c with start := dr.1 } else c
        let c := if pyTruthyOpt dr.2 && !pyTruthyOpt c.«end» then { c with «end» := dr.2 } else c
        (some c, committed.1, moved)
      else
        eduStepTail st ln
    | none => eduStepTail st ln

/-- The education reconstruction pass: bracket merge, the per-line loop,
and the final commit. Returns (education records, records moved to
experience). -/
def eduSection (bl : List String) : List EduDict × List ExpDict :=
  let el := mergeBracketLines bl
  let st := el.foldl eduStep ((none : Option EduDict), ([] : List EduDict), ([] : List ExpDict))
  let edu := match st.1 with
    | some c => if eduDictTruthy c then st.2.1 ++ [c] else st.2.1
    | none => st.2.1
  (edu, st.2.2)

/-- Python `commit_current_exp`'s guard: stripped company or role, or a
date, or any bullet. -/
def expDictTruthy (r : ExpDict) : Bool :=
  pyStrip (r.company.getD "") ≠ "" || pyStrip (r.role.getD "") ≠ "" ||
  pyTruthyOpt r.start || pyTruthyOpt r.«end» || !r.bullets.isEmpty

/-- A blank experience record (`{"company": "", "role": "", "start": None,
"end": None, "bullets": []}`). -/
def blankExp : ExpDict :=
  { company := some "", role := some "", start := none, «end» := none, bullets := [] }

/-- Python `re.split(r"\s+[\-—–|:]\s+", ln)` separator class. -/
def sepClassCR (c : Char) : Bool :=
  c ∈ ['-', '—', '–', '|', ':']

/-- Length of a delimiter match `\s+[\-—–|:]\s+` at the start of `l`, when
there is one (the greedy whitespace runs are maximal; the classes are
disjoint, so no backtracking arises). -/
def sepDelimLen (l : List Char) : Option Nat :=
  if (l.takeWhile pyIsSpace).length = 0 then none
  else if (l.drop (l.takeWhile pyIsSpace).length) ≠ [] ∧
      sepClassCR ((l.drop (l.takeWhile pyIsSpace).length).headD ' ') then
    if ((l.drop ((l.takeWhile pyIsSpace).length + 1)).takeWhile pyIsSpace).length = 0 then
      none
    else
      some ((l.takeWhile pyIsSpace).length + 1 +
        ((l.drop ((l.takeWhile pyIsSpace).length + 1)).takeWhile pyIsSpace).length)
  else none

lemma sepDelimLen_pos {l : List Char} {d : Nat} (h : sepDelimLen l = some d) : 1 ≤ d := by
  unfold sepDelimLen at h
  split_ifs at h
  cases h
  omega

/-- Python `re.split(r"\s+[\-—–|:]\s+", ln)` on character lists, with fuel
to keep the recursion structural; a delimiter or a plain character consumes
at least one character, so `l.length` fuel is enough. -/
def splitSepScanFuel : Nat → List Char → List Char → List (List Char)
  | 0, l, cur => [cur.reverse ++ l]
  | _ + 1, [], cur => [cur.reverse]
  | fuel + 1, c :: cs, cur =>
    match sepDelimLen (c :: cs) with
    | some d => cur.reverse :: splitSepScanFuel fuel ((c :: cs).drop d) []
    | none => splitSepScanFuel fuel cs (c :: cur)

def companyRoleParts (s : String) : List String :=
  (splitSepScanFuel s.data.length s.data []).map String.mk

/-- The "Role, Company" / "Company - Role" / fallback branches of the
experience loop (lines 317-343 of the source). -/
def expStepTail (st : Option ExpDict × List ExpDict) (ln : String) :
    Option ExpDict × List ExpDict :=
  let curx := st.1
  let exp := st.2
  match roleFirstLine ln with
  | some (g1, g2) =>
    match curx with
    | some c =>
      if pyStrip (c.company.getD "") = "" && pyStrip (c.role.getD "") = "" then
        (some { c with company := some (pyStrip g2), role := some (pyStrip g1) }, exp)
      else
        (some { blankExp with company := some (pyStrip g2), role := some (pyStrip g1) },
         if expDictTruthy c then exp ++ [c] else exp)
    | none =>
      (some { blankExp with company := some (pyStrip g2), role := some (pyStrip g1) }, exp)
  | none =>
    let parts := companyRoleParts ln
    if decide (parts.length ≥ 2) &&
        ((parts.getD 0 "").data.any Char.isAlpha) &&
        ((parts.getD 1 "").data.any Char.isAlpha) then
      let comp := pyStrip (parts.getD 0 "")
      let role := pyStrip (parts.getD 1 "")
      match curx with
      | some c =>
        if pyStrip (c.company.getD "") = "" && pyStrip (c.role.getD "") = "" then
          (some { c with company := some comp, role := some role }, exp)
        else
          (some { blankExp with company := some comp, role := some role },
           if expDictTruthy c then exp ++ [c] else exp)
      | none =>
        (some { blankExp with company := some comp, role := some role }, exp)
    else
      match curx with
      | some c => (some { c with bullets := c.bullets ++ [ln] }, exp)
      | none =>
        if ln.data.any Char.isAlpha then
          (some { blankExp with company := some ln }, exp)
        else (none, exp)

/-- One step of the experience reconstruction loop (lines 294-343 of the
source), over state (open record, committed records). -/
def expStep (st : Option ExpDict × List ExpDict) (ln : String) :
    Option ExpDict × List ExpDict :=
  let curx := st.1
  let exp := st.2
  if ln = "" || isHeaderLine ln then st
  else if isBullet ln then
    let c := curx.getD blankExp
    let b := cleanBullet ln
    if isYearToken b then
      if !pyTruthyOpt c.start then (some { c with start := some b }, exp)
      else (some c, exp)
    else (some { c with bullets := c.bullets ++ [b] }, exp)
  else
    match dateRangeFromLine ln with
    | some dr =>
      if drAny dr then
        let c := curx.getD blankExp
        let c := if pyTruthyOpt dr.1 && !pyTruthyOpt c.start then { c with start := dr.1 } else c
        let c := if pyTruthyOpt dr.2 && !pyTruthyOpt c.«end» then { c with «end» := dr.2 } else c
        (some c, exp)
      else expStepTail st ln
    | none => expStepTail st ln

/-- The experience reconstruction pass with the final commit. -/
def expSection (bl : List String) : List ExpDict :=
  let st := bl.foldl expStep ((none : Option ExpDict), ([] : List ExpDict))
  match st.1 with
  | some c => if expDictTruthy c then st.2 ++ [c] else st.2
  | none => st.2

/-- The degree / school / GPA branches of the projects loop (lines 395-413
of the source): `some` when the cleaned line is diverted to the education
recovery (returning the new pending record and recovered list), `none` when
it falls through to the projects block. -/
def projDivertTail (pending : Option EduDict) (eduFP : List EduDict)
    (textLine : String) : Option (Option EduDict × List EduDict) :=
  if looksLikeDegree textLine then
    let c := pending.getD {}
    let dm := splitDegreeMajor textLine
    let c := if pyTruthyOpt dm.1 && !pyTruthyOpt c.degree then { c with degree := dm.1 } else c
    let c := if pyTruthyOpt dm.2 && !pyTruthyOpt c.major then { c with major := dm.2 } else c
    some (some c, eduFP)
  else if looksLikeSchool textLine then
    let c := pending.getD {}
    if pyTruthyOpt c.school then
      some (some ({ school := some textLine } : EduDict), eduFP ++ [c])
    else
      some (some { c with school := some textLine }, eduFP)
  else if containsWordCI ["GPA"] textLine then
    some (some (pending.getD {}), eduFP)
  else
    none

/-- The date branch of the projects loop (lines 381-394 of the source),
then the tail branches: `some` when the cleaned line is diverted. -/
def projDivertStep (pending : Option EduDict) (eduFP : List EduDict)
    (textLine : String) : Option (Option EduDict × List EduDict) :=
  match dateRangeFromLine textLine with
  | some dr =>
    if drAny dr then
      let flushed :=
        match pending with
        | some p =>
          if pyTruthyOpt p.school &&
              (pyTruthyOpt p.start || pyTruthyOpt p.«end» ||
               pyTruthyOpt p.degree || pyTruthyOpt p.major) then
            (some ({} : EduDict), if pyTruthyOpt p.school then eduFP ++ [p] else eduFP)
          else (some p, eduFP)
        | none => (none, eduFP)
      let c := flushed.1.getD {}
      let c := if pyTruthyOpt dr.1 && !pyTruthyOpt c.start then { c with start := dr.1 } else c
      let c := if pyTruthyOpt dr.2 && !pyTruthyOpt c.«end» then { c with «end» := dr.2 } else c
      some (some c, flushed.2)
    else projDivertTail pending eduFP textLine
  | none => projDivertTail pending eduFP textLine

/-- One step of the projects reconstruction loop (lines 375-414 of the
source), over state (pending education record, education records recovered
from the projects section, project bullet block): a diverted line updates
the education part and leaves the block alone; any other line is appended
to the block. -/
def projStep (st : Option EduDict × List EduDict × List String) (ln : String) :
    Option EduDict × List EduDict × List String :=
  if ln = "" then st
  else
    let textLine := if isBullet ln then cleanBullet ln else ln
    match projDivertStep st.1 st.2.1 textLine with
    | some pe => (pe.1, pe.2, st.2.2)
    | none => (st.1, st.2.1, st.2.2 ++ [textLine])

/-- The projects reconstruction pass (lines 347-417 of the source): bracket
merge, the per-line loop, the final education flush, and the single
synthetic "Projects" record. Returns (project records, education records
recovered from the projects section). -/
def projSection (plines : List String) : List ExpDict × List EduDict :=
  let merged := mergeBracketLines plines
  if merged.isEmpty then ([], [])
  else
    let st := merged.foldl projStep
      ((none : Option EduDict), ([] : List EduDict), ([] : List String))
    let eduFP :=
      match st.1 with
      | some p => if pyTruthyOpt p.school then st.2.1 ++ [p] else st.2.1
      | none => st.2.1
    let block := st.2.2
    (if !block.isEmpty then
      [{ company := some "Projects", role := none, start := none, «end» := none,
         bullets := block }]
     else [], eduFP)

/-! ### Claims about the segmenter -/

/-- C3 (the code's actual behaviour at the claimed input): on the
education-section lines `["University of Melbourne",
"Bachelor of Science (Computer Science)", "2019 - 2022"]` the education
loop produces TWO records, not one: the date line flushes the open record
(which already has a school) and opens a fresh record that receives the
dates but no school — contradicting the claim (and the data model's
"school required once committed", which the downstream
`Profile(**prof_dict)` validation enforces). -/
theorem education_scenario_yields_two_records :
    eduSection ["University of Melbourne", "Bachelor of Science (Computer Science)",
                "2019 - 2022"]
      = ([{ school := some "University of Melbourne", degree := some "Bachelor of Science",
            major := some "Computer Science", start := none, «end» := none },
          { school := none, degree := none, major := none,
            start := some "2019", «end» := some "2022" }],
         []) := by
  decide

/-- C9: the line "Software Engineer, Acme Corp" inside an Experience
section is bucketed into the experience section and produces
`Experience{company:"Acme Corp", role:"Software Engineer"}`. -/
theorem experience_role_first_scenario :
    (assignSections ["Experience", "Software Engineer, Acme Corp"]).experience
        = ["Software Engineer, Acme Corp"] ∧
    expSection ["Software Engineer, Acme Corp"]
        = [{ company := some "Acme Corp", role := some "Software Engineer",
             start := none, «end» := none, bullets := [] }] := by
  constructor
  · decide
  · decide

/-- A projects-section line is diverted to education recovery when it is a
date-range, degree, school, or GPA line (after bullet-glyph cleaning). -/
def projDiverted (s : String) : Bool :=
  (match dateRangeFromLine s with
   | some dr => drAny dr
   | none => false)
  || looksLikeDegree s || looksLikeSchool s || containsWordCI ["GPA"] s

/-- The bullet contributed to the "Projects" block by one merged line. -/
def projLineContrib (ln : String) : List String :=
  if ln = "" then []
  else
    let t := if isBullet ln then cleanBullet ln else ln
    if projDiverted t then [] else [t]

/-- The block of the synthetic "Projects" record, described directly:
the non-diverted lines, in order, after the bracket merge. -/
def projBlockSpec (plines : List String) : List String :=
  (mergeBracketLines plines).flatMap projLineContrib

lemma projDivertTail_isSome (p : Option EduDict) (e : List EduDict) (t : String) :
    (projDivertTail p e t).isSome =
      (looksLikeDegree t || looksLikeSchool t || containsWordCI ["GPA"] t) := by
  unfold projDivertTail
  split_ifs <;> simp_all [apply_ite Option.isSome]

lemma projDivertStep_isSome (p : Option EduDict) (e : List EduDict) (t : String) :
    (projDivertStep p e t).isSome = projDiverted t := by
  unfold projDivertStep projDiverted
  rcases hdr : dateRangeFromLine t with _ | dr
  · simp [projDivertTail_isSome]
  · by_cases hany : drAny dr = true
    · simp [hany]
    · simp only [Bool.not_eq_true] at hany
      simp [hany, projDivertTail_isSome]

lemma projStep_block_eq (st : Option EduDict × List EduDict × List String)
    (ln : String) :
    (projStep st ln).2.2 = st.2.2 ++ projLineContrib ln := by
  by_cases h0 : ln = ""
  · simp [projStep, projLineContrib, h0]
  · simp only [projStep, projLineContrib, h0, ite_false, if_neg, not_false_iff]
    rcases hpd : projDivertStep st.1 st.2.1 (if isBullet ln then cleanBullet ln else ln)
      with _ | pe
    · have := projDivertStep_isSome st.1 st.2.1 (if isBullet ln then cleanBullet ln else ln)
      rw [hpd] at this
      simp only [Option.isSome_none] at this
      rw [← this]
      simp
    · have := projDivertStep_isSome st.1 st.2.1 (if isBullet ln then cleanBullet ln else ln)
      rw [hpd] at this
      simp only [Option.isSome_some] at this
      rw [← this]
      simp

lemma foldl_projStep_block (lines : List String)
    (st : Option EduDict × List EduDict × List String) :
    (lines.foldl projStep st).2.2 = st.2.2 ++ lines.flatMap projLineContrib := by
  induction lines generalizing st with
  | nil => simp
  | cons ln rest ih =>
    simp only [List.foldl_cons, List.flatMap_cons]
    rw [ih, projStep_block_eq, List.append_assoc]

/-- C7 (amended): the Projects section yields at most one synthetic record
with company "Projects"; its bullets are exactly the section's merged lines
that are NOT diverted to education recovery (date-range / degree / school /
GPA lines), in order, with bullet glyphs stripped; the record exists iff at
least one such line remains. -/
theorem projects_reconstruction_amended (plines : List String) :
    (projSection plines).1 =
      (if projBlockSpec plines = [] then []
       else [{ company := some "Projects", role := none, start := none, «end» := none,
               bullets := projBlockSpec plines }]) := by
  unfold projSection
  by_cases hm : (mergeBracketLines plines).isEmpty
  · have hnil : mergeBracketLines plines = [] := List.isEmpty_iff.mp hm
    simp [hm, projBlockSpec, hnil]
  · simp only [hm, Bool.false_eq_true, if_false]
    have hb := foldl_projStep_block (mergeBracketLines plines)
      ((none : Option EduDict), ([] : List EduDict), ([] : List String))
    simp only [List.nil_append] at hb
    rw [hb]
    by_cases hempty : (mergeBracketLines plines).flatMap projLineContrib = []
    · simp [projBlockSpec, hempty]
    · simp [projBlockSpec, hempty, List.isEmpty_iff]

/-- C7 (counterexample): on the projects-section lines
`["Built an app for kids", "University of Melbourne"]` the synthetic
"Projects" record keeps only the first line as a bullet — the school line
is routed to education recovery, so the claim's "bullets are every line of
the section" and "no Projects-section line is routed anywhere else" both
fail. -/
theorem projects_claim_counterexample :
    (projSection ["Built an app for kids", "University of Melbourne"]).1
        = [{ company := some "Projects", role := none, start := none, «end» := none,
             bullets := ["Built an app for kids"] }] ∧
    (projSection ["Built an app for kids", "University of Melbourne"]).2
        = [{ school := some "University of Melbourne", degree := none, major := none,
             start := none, «end» := none }] := by
  constructor
  · decide
  · decide

/-! ### JD extractor (`src/modules/jd/parser.py`)

The BeautifulSoup document is abstracted by `NormalizedDoc`, which holds
exactly the query results `parse_html_to_jd` reads; embedded JSON payloads
are `PyJson` values (a script whose raw text fails both `json.loads`
attempts is `none`). Uncaught Python exceptions (a `", ".join` over a
non-string address component; pydantic rejecting a non-string scalar at
`ParsedJD(...)`) are `Except.error ()`. `PyJson` is defined mutually with
its own array/object spines so that every function over it is structurally
recursive (kernel-reducible). -/

mutual
inductive PyJson where
  | null
  | bool (b : Bool)
  | num (n : Int)
  | str (s : String)
  | arr (xs : PyArr)
  | obj (kvs : PyObj)

inductive PyArr where
  | nil
  | cons (hd : PyJson) (tl : PyArr)

inductive PyObj where
  | nil
  | cons (k : String) (v : PyJson) (tl : PyObj)
end

/-- Build an array spine from a list. -/
def pyarr : List PyJson → PyArr
  | [] => .nil
  | x :: xs => .cons x (pyarr xs)

/-- Build an object spine from a key-value list. -/
def pyobj : List (String × PyJson) → PyObj
  | [] => .nil
  | (k, v) :: kvs => .cons k v (pyobj kvs)

def PyArr.toList : PyArr → List PyJson
  | .nil => []
  | .cons h t => h :: t.toList

/-- The values of an object, in insertion order (`dict.values()`). -/
def PyObj.values : PyObj → List PyJson
  | .nil => []
  | .cons _ v t => v :: t.values

/-- Python truthiness of a decoded JSON value. -/
def pyTruthy : PyJson → Bool
  | .null => false
  | .bool b => b
  | .num n => n ≠ 0
  | .str s => s ≠ ""
  | .arr .nil => false
  | .arr (.cons _ _) => true
  | .obj .nil => false
  | .obj (.cons _ _ _) => true

/-- Python `a or b`. -/
def pyOrJ (a b : PyJson) : PyJson :=
  if pyTruthy a then a else b

/-- Lookup in an object spine (first match; decoded JSON objects have
unique keys). -/
def PyObj.lookup : PyObj → String → Option PyJson
  | .nil, _ => none
  | .cons k v t, key => if k = key then some v else t.lookup key

/-- Python `dict.get(k)` (`none` = key absent; the source always guards
non-dicts with `isinstance` checks, for which this returns `none` too). -/
def jget : PyJson → String → Option PyJson
  | .obj kvs, k => kvs.lookup k
  | _, _ => none

/-- Python `dict.get(k)` collapsed to a value: a JSON `null` value and an
absent key are both Python `None`. -/
def jgetD (j : PyJson) (k : String) : PyJson :=
  (jget j k).getD .null

def isJStr : PyJson → Bool
  | .str _ => true
  | _ => false

mutual
/-- Python `repr`-style rendering of a decoded JSON value (string escaping
is not modelled — no input in this development needs it). -/
def pyRepr : PyJson → String
  | .null => "None"
  | .bool true => "True"
  | .bool false => "False"
  | .num n => toString n
  | .str s => "\x27" ++ s ++ "\x27"
  | .arr xs => "[" ++ pyReprArr xs ++ "]"
  | .obj kvs => "\x7b" ++ pyReprObj kvs ++ "\x7d"

def pyReprArr : PyArr → String
  | .nil => ""
  | .cons h .nil => pyRepr h
  | .cons h t => pyRepr h ++ ", " ++ pyReprArr t

def pyReprObj : PyObj → String
  | .nil => ""
  | .cons k v .nil => "\x27" ++ k ++ "\x27: " ++ pyRepr v
  | .cons k v t => "\x27" ++ k ++ "\x27: " ++ pyRepr v ++ ", " ++ pyReprObj t
end

/-- Python `str(x)` for a decoded JSON value. -/
def pyStr : PyJson → String
  | .str s => s
  | j => pyRepr j

mutual
/-- Pre-order walk over the decoded JSON tree (`_walk_json`): a dict is
yielded, then its values are walked in order; a list's elements are walked;
NOTHING ELSE IS YIELDED — in particular lists themselves are never
yielded. -/
def walkJson : PyJson → List PyJson
  | .obj kvs => .obj kvs :: walkJsonObj kvs
  | .arr xs => walkJsonArr xs
  | _ => []

def walkJsonArr : PyArr → List PyJson
  | .nil => []
  | .cons h t => walkJson h ++ walkJsonArr t

def walkJsonObj : PyObj → List PyJson
  | .nil => []
  | .cons _ v t => walkJson v ++ walkJsonObj t
end

/-- A simplified model of `BeautifulSoup(s, "lxml").get_text("\n",
strip=True)`: the text segments between tags, stripped, with empties
dropped, joined by newlines (entity decoding is not modelled). -/
def textSegsAux : Bool → List Char → List Char → List (List Char)
  | _, acc, [] => [acc.reverse]
  | true, acc, c :: cs =>
    if c = '>' then textSegsAux false acc cs else textSegsAux true acc cs
  | false, acc, c :: cs =>
    if c = '<' then acc.reverse :: textSegsAux true [] cs
    else textSegsAux false (c :: acc) cs

def htmlGetText (s : String) : String :=
  String.intercalate "\n"
    (((textSegsAux false [] s.data).map (fun seg => pyStrip (String.mk seg))).filter (· ≠ ""))

/-- The `RESP_VERBS` vocabulary (with both spellings of `optimi[sz]e`). -/
def respVerbs : List String :=
  ["design", "develop", "build", "implement", "maintain", "deliver", "own",
   "lead", "optimise", "optimize", "deploy", "monitor", "troubleshoot"]

/-- The `REQ_TOKENS` vocabulary. -/
def reqTokens : List String :=
  ["experience", "knowledge", "degree", "bachelor", "master", "proficient",
   "familiar", "required", "preferred"]

/-- Split on the single-character class of `re.split(r"[\n•\-\*]", s)`. -/
def splitOnCharClass (cls : List Char) : List Char → List Char → List (List Char)
  | acc, [] => [acc.reverse]
  | acc, c :: cs =>
    if cls.contains c then acc.reverse :: splitOnCharClass cls [] cs
    else splitOnCharClass cls (c :: acc) cs

/-- Python `[s.strip() for s in re.split(r"[\n•\-\*]", x) if s.strip()]`. -/
def splitBulletsNonempty (x : String) : List String :=
  (splitOnCharClass ['\n', '•', '-', '*'] [] x.data).filterMap (fun seg =>
    let t := pyStrip (String.mk seg)
    if t ≠ "" then some t else none)

/-- The state accumulated by `_extract_from_json_ld`: the raw scalar values
(possibly ill-typed JSON values) and the list fields. -/
structure LdExtract where
  title : PyJson := .null
  company : PyJson := .null
  location : PyJson := .null
  responsibilities : List String := []
  requirements : List String := []
  descriptions : List String := []

/-- The `", ".join(filter(None, [addressLocality, addressRegion,
addressCountry]))`: raises (errors) when a kept component is not a string. -/
def joinAddress (addr : PyJson) : Except Unit String :=
  let kept := ([jget addr "addressLocality", jget addr "addressRegion",
                jget addr "addressCountry"].filterMap id).filter pyTruthy
  if kept.all isJStr then
    .ok (String.intercalate ", " (kept.filterMap (fun v =>
      match v with | .str s => some s | _ => none)))
  else .error ()

/-- The list/string extension logic shared by the `responsibilities` and
`qualifications` fields of a JobPosting block. -/
def ldItemsOf : PyJson → List String
  | .arr xs => xs.toList.filterMap (fun x =>
      let s := pyStrip (pyStr x)
      if s ≠ "" then some s else none)
  | .str s => splitBulletsNonempty s
  | _ => []

/-- Python `handle_jobposting(obj)` (lines 80-114 of the source) acting on
the accumulated state. -/
def handleJobposting (obj : PyJson) (st : LdExtract) : Except Unit LdExtract :=
  match obj with
  | .obj _ => do
    let t0 := pyOrJ (jgetD obj "@type") (jgetD obj "type")
    let tJ ← (match t0 with
      | .arr xs =>
        if xs.toList.all isJStr then
          Except.ok (PyJson.str (String.intercalate ","
            (xs.toList.filterMap (fun v => match v with | .str s => some s | _ => none))))
        else Except.error ()
      | _ => Except.ok t0)
    if !pyTruthy tJ || !pySubstr "JobPosting" (pyStr tJ) then
      return st
    let title := pyOrJ st.title (jgetD obj "title")
    let org := pyOrJ (jgetD obj "hiringOrganization") (.obj .nil)
    let company := match org with
      | .obj _ => pyOrJ st.company (jgetD org "name")
      | _ => st.company
    let loc := pyOrJ (jgetD obj "jobLocation") (.obj .nil)
    let location ← (match loc with
      | .obj _ =>
        match pyOrJ (jgetD loc "address") (.obj .nil) with
        | .obj kvs => do
          let j ← joinAddress (.obj kvs)
          Except.ok (pyOrJ st.location (.str j))
        | _ => Except.ok st.location
      | _ => Except.ok st.location)
    let descs := match jgetD obj "description" with
      | .str s => if pyStrip s ≠ "" then st.descriptions ++ [htmlGetText s]
                  else st.descriptions
      | _ => st.descriptions
    let resp := st.responsibilities ++ ldItemsOf (jgetD obj "responsibilities")
    let quals := pyOrJ (jgetD obj "qualifications") (jgetD obj "experienceRequirements")
    let req := st.requirements ++ ldItemsOf quals
    return { title := title, company := company, location := location,
             responsibilities := resp, requirements := req, descriptions := descs }
  | _ => return st

/-- Python `_extract_from_json_ld` over the decoded scripts (`none` = the
raw text failed both `json.loads` attempts and the script contributes
nothing). -/
def extractFromJsonLd (scripts : List (Option PyJson)) : Except Unit LdExtract :=
  scripts.foldlM (fun st sc =>
    match sc with
    | none => Except.ok st
    | some data =>
      match data with
      | .obj _ =>
        (match jget data "@graph" with
         | some (.arr nodes) => nodes.toList.foldlM (fun st n => handleJobposting n st) st
         | some _ => handleJobposting data st
         | none => handleJobposting data st)
      | .arr items => items.toList.foldlM (fun st it => handleJobposting it st) st
      | _ => Except.ok st) {}

/-- The result of `_parse_seek_next_data` (its scalars are type-guarded in
the source, hence plain optional strings). -/
structure SeekExtract where
  title : Option String := none
  company : Option String := none
  location : Option String := none
  responsibilities : List String := []
  requirements : List String := []
  descriptions : List String := []
deriving Repr, DecidableEq

/-- Python `x = x or y.strip()` for an optional string already known
truthy-checked on the right. -/
def pyOrOptStr (a : Option String) (b : String) : Option String :=
  match a with
  | some s => if s ≠ "" then a else some b
  | none => some b

/-- The rich-description branch of the seek walk (lines 289-293). -/
def seekDescStep (st : SeekExtract) (node : PyJson) : SeekExtract :=
  ["description", "content", "body"].foldl (fun st k =>
    match jget node k with
    | some (.str s) =>
      let text := htmlGetText s
      if text.length > 10 then { st with descriptions := st.descriptions ++ [text] }
      else st
    | _ => st) st

/-- One node of the `_walk_json` traversal in `_parse_seek_next_data`
(lines 259-293 of the source). -/
def seekNodeStep (st : SeekExtract) (node : PyJson) : SeekExtract :=
  let title := ["jobTitle", "title"].foldl (fun t k =>
    match jget node k with
    | some (.str s) => if s.length > 2 then pyOrOptStr t (pyStrip s) else t
    | _ => t) st.title
  let adv := pyOrJ (pyOrJ (jgetD node "advertiser") (jgetD node "company"))
    (jgetD node "hiringOrganization")
  let company := match adv with
    | .obj _ =>
      (match pyOrJ (jgetD adv "name") (jgetD adv "companyName") with
       | .str nm => if pyStrip nm ≠ "" then pyOrOptStr st.company (pyStrip nm) else st.company
       | _ => st.company)
    | _ => st.company
  let location := match jget node "location" with
    | some (.str s) => if s.length > 1 then pyOrOptStr st.location (pyStrip s) else st.location
    | _ => st.location
  let st1 := { st with title := title, company := company, location := location }
  match node with
  | .arr xs =>
    if !xs.toList.isEmpty ∧ xs.toList.all isJStr then
      let texts := xs.toList.filterMap (fun x =>
        match x with
        | .str s => if (pyStrip s).length > 3 then some (pyStrip s) else none
        | _ => none)
      if texts.isEmpty then st1
      else
        let classified := texts.foldl (fun (rr : List String × List String) t =>
          if containsWordCI respVerbs t then (rr.1 ++ [t], rr.2)
          else if containsWordCI reqTokens t then (rr.1, rr.2 ++ [t])
          else rr) (st1.responsibilities, st1.requirements)
        -- NOTE (source line 287): the code extends the description pool
        -- with ALL the texts, not only the unclassified ones.
        seekDescStep
          { st1 with responsibilities := classified.1, requirements := classified.2,
                     descriptions := st1.descriptions ++ texts } node
    else seekDescStep st1 node
  | _ => seekDescStep st1 node

/-- Python `_parse_seek_next_data` over the decoded `__NEXT_DATA__` payload
(`none` = script absent, empty, or undecodable — all of which return the
empty result in the source). Since `_walk_json` yields only dictionaries,
the list-of-strings branch above never fires. -/
def parseSeekNextData (nextData : Option PyJson) : SeekExtract :=
  match nextData with
  | none => {}
  | some data =>
    let st := (walkJson data).foldl seekNodeStep {}
    { st with responsibilities := dedupExact st.responsibilities,
              requirements := dedupExact st.requirements,
              descriptions := dedupExact st.descriptions }

/-- A heading element (`h1`-`h4`) with the items captured from its next
non-`br`/`hr` sibling: the `li` texts when that sibling is a `ul`/`ol`, the
singleton paragraph text when it is a `p`, and `[]` otherwise (including no
sibling), which the source skips. -/
structure HeadingBlock where
  text : String
  items : List String
deriving Repr, DecidableEq

/-- The abstraction of the BeautifulSoup document: exactly the query
results `parse_html_to_jd` and its helpers read. Meta fields hold the raw
`content` attribute (`none` = tag or attribute absent); `get_text`-based
fields hold the already-stripped tag text. -/
structure NormalizedDoc where
  ldScripts : List (Option PyJson) := []
  nextData : Option PyJson := none
  ogTitle : Option String := none
  titleText : Option String := none
  h1Text : Option String := none
  metaDescName : Option String := none
  metaDescOg : Option String := none
  metaDescTwitter : Option String := none
  companyCandidates : List (Option String) := []
  ogSiteName : Option String := none
  seekDomTitle : Option String := none
  seekDomCompany : Option String := none
  seekDomLocation : Option String := none
  headings : List HeadingBlock := []
  listItems : List String := []

/-- An optional string kept only when Python-truthy. -/
def truthyOnly (o : Option String) : Option String :=
  match o with
  | some t => if t ≠ "" then some t else none
  | none => none

def extractTitleTail (d : NormalizedDoc) : Option String :=
  match d.titleText with
  | some t => if t ≠ "" then some (pyStrip t) else d.h1Text.map pyStrip
  | none => d.h1Text.map pyStrip


/-- Python `_extract_title`: og:title content, else `<title>` text, else
`<h1>` text (the `h1` branch has no truthiness check and may return ""). -/
def extractTitleDoc (d : NormalizedDoc) : Option String :=
  match d.ogTitle with
  | some c => if c ≠ "" then some (pyStrip c) else extractTitleTail d
  | none => extractTitleTail d

/-- Python `_extract_meta_description`: the first of the three meta
selectors with truthy content, stripped. -/
def extractMetaDescription (d : NormalizedDoc) : Option String :=
  [d.metaDescName, d.metaDescOg, d.metaDescTwitter].findSome? (fun o =>
    match o with
    | some c => if c ≠ "" then some (pyStrip c) else none
    | none => none)

/-- Python `_extract_company`: the first selector tag with non-empty
stripped text, else the og:site_name content. -/
def extractCompany (d : NormalizedDoc) : Option String :=
  match d.companyCandidates.findSome? truthyOnly with
  | some t => some t
  | none =>
    match d.ogSiteName with
    | some c => if c ≠ "" then some (pyStrip c) else none
    | none => none

/-- Python `_seek_dom_fields`. -/
def seekDomFields (d : NormalizedDoc) : Option String × Option String × Option String :=
  (truthyOnly d.seekDomTitle, truthyOnly d.seekDomCompany, truthyOnly d.seekDomLocation)

/-- The responsibility-heading vocabulary `HEADINGS_RESP` (substring,
case-insensitive). -/
def respHeading (t : String) : Bool :=
  ["responsibilit", "what you\x27ll do", "what you will do", "key duties",
   "about the role"].any (fun p => ciSubstr p t)

/-- The requirement-heading vocabulary `HEADINGS_REQ`. -/
def reqHeading (t : String) : Bool :=
  ["requirement", "qualification", "about you", "skills", "experience",
   "what you bring"].any (fun p => ciSubstr p t)

/-- Python `_extract_lists_by_headings` (benefits are never produced). -/
def extractListsByHeadings (d : NormalizedDoc) : List String × List String :=
  d.headings.foldl (fun (acc : List String × List String) hb =>
    if hb.items.isEmpty then acc
    else if respHeading hb.text then (acc.1 ++ hb.items, acc.2)
    else if reqHeading hb.text then (acc.1, acc.2 ++ hb.items)
    else acc) ([], [])

/-- Python `_extract_generic_lists`. -/
def extractGenericLists (d : NormalizedDoc) : List String × List String :=
  d.listItems.foldl (fun (acc : List String × List String) t =>
    if t = "" ∨ t.length < 3 then acc
    else if containsWordCI respVerbs t then (acc.1 ++ [t], acc.2)
    else if containsWordCI reqTokens t then (acc.1, acc.2 ++ [t])
    else acc) ([], [])

/-- The `TECH_TOKENS` vocabulary. -/
def techTokens : List String :=
  ["python", "java", "c++", "c#", "go", "typescript", "javascript", "react",
   "node", "spring", "docker", "kubernetes", "aws", "azure", "gcp", "sql",
   "postgres", "mysql", "mongodb", "terraform", "linux", "git", "ci/cd",
   "ros", "opencv", "pytorch", "tensorflow", "fastapi"]

/-- Python `_extract_keywords`: substring scan over the lower-cased joined
texts, display-cased, deduplicated, sorted. -/
def extractKeywords (texts : List String) : List String :=
  let lowtexts := pyLower (String.intercalate "\n" texts)
  let kws := techTokens.filterMap (fun tok =>
    if pySubstr tok lowtexts then
      some (if ["aws", "gcp", "sql", "ros"].contains tok then pyUpper tok
            else pyCapitalize tok)
    else none)
  (dedupExact kws).insertionSort (· ≤ ·)

/-- Python `_filter_questions`. -/
def filterQuestions (items : List String) : List String :=
  items.filterMap (fun s =>
    let sc := pyStrip s
    let low := pyLower sc
    if sc = "" then none
    else if pyEndsWith sc "?" then none
    else if pyStartsWith low "how many" || pyStartsWith low "how much" ||
        pyStartsWith low "what is" || pyStartsWith low "what\x27s" ||
        pyStartsWith low "when can" || pyStartsWith low "do you" then none
    else some sc)

/-- Maximal runs of characters satisfying `p`. -/
def findallRuns (p : Char → Bool) (l : List Char) (acc : List Char) : List (List Char) :=
  match l with
  | [] => if acc = [] then [] else [acc.reverse]
  | c :: cs =>
    if p c then findallRuns p cs (c :: acc)
    else if acc = [] then findallRuns p cs []
    else acc.reverse :: findallRuns p cs []

/-- Count of Python `str.split()` words (maximal non-whitespace runs). -/
def pyWordCount (s : String) : Nat :=
  ((findallRuns (fun c => !pyIsSpace c) s.data []).length)

/-- The delimiter of `SPLIT_DELIMS` at the head of `l` (`prev` is the
character just before, for the `(?<=\.)\s+` lookbehind); alternatives in
source order: `\r?\n`, `•`, `;`, dot-preceded whitespace run. -/
def splitDelimsLen (prev : Option Char) (l : List Char) : Option Nat :=
  match l with
  | [] => none
  | c :: cs =>
    if c = '\r' ∧ cs.headD ' ' = '\n' ∧ cs ≠ [] then some 2
    else if c = '\n' then some 1
    else if c = '•' then some 1
    else if c = ';' then some 1
    else if pyIsSpace c ∧ prev = some '.' then some (1 + (cs.takeWhile pyIsSpace).length)
    else none

/-- `SPLIT_DELIMS.split`, with fuel (a delimiter or a content character
consumes at least one character). -/
def splitDelimsFuel : Nat → Option Char → List Char → List Char → List (List Char)
  | 0, _, acc, l => [acc.reverse ++ l]
  | _ + 1, _, acc, [] => [acc.reverse]
  | fuel + 1, prev, acc, c :: cs =>
    match splitDelimsLen prev (c :: cs) with
    | some d =>
      acc.reverse ::
        splitDelimsFuel fuel (some ((c :: cs).getD (d - 1) ' ')) [] ((c :: cs).drop d)
    | none => splitDelimsFuel fuel (some c) (c :: acc) cs

def splitDelims (l : List Char) : List (List Char) :=
  splitDelimsFuel l.length none [] l

/-- Python `_split_compound_items` for one item. -/
def splitCompoundOne (item : String) : List String :=
  if item = "" then []
  else
    let text := pyStrip item
    if text = "" then []
    else
      let base :=
        if strHasChar text ':' then
          let head := String.mk (text.data.takeWhile (· ≠ ':'))
          let tail := String.mk ((text.data.dropWhile (· ≠ ':')).drop 1)
          if pyWordCount head ≤ 6 ∧ pyStrip tail ≠ "" then pyStrip tail else text
        else text
      let parts := (splitDelims base.data).filterMap (fun seg =>
        let sg := pyStripChars [' ', '.', ';', ',', '-', '•'] (String.mk seg)
        if sg.length > 3 then some sg else none)
      if !parts.isEmpty then parts else [text]

/-- Python `_split_compound_items`. -/
def splitCompoundItems (items : List String) : List String :=
  dedupExact (items.flatMap splitCompoundOne)

def optStrToJson : Option String → PyJson
  | some s => .str s
  | none => .null

/-- The scalar cascade of `parse_html_to_jd` (lines 316-325 of the source):
`t_seek or t_ld or _extract_title(soup)` etc., then the seek DOM tier when
any of the three is still falsy and the URL is a seek URL. -/
def scalarCascade (d : NormalizedDoc) (seekOn : Bool) (L : LdExtract)
    (S : SeekExtract) : PyJson × PyJson × PyJson :=
  let title0 := pyOrJ (pyOrJ (optStrToJson S.title) L.title)
    (optStrToJson (extractTitleDoc d))
  let company0 := pyOrJ (pyOrJ (optStrToJson S.company) L.company)
    (optStrToJson (extractCompany d))
  let location0 := pyOrJ (optStrToJson S.location) L.location
  if (!pyTruthy title0 || !pyTruthy company0 || !pyTruthy location0) && seekOn then
    let dom := seekDomFields d
    (pyOrJ title0 (optStrToJson dom.1),
     pyOrJ company0 (optStrToJson dom.2.1),
     pyOrJ location0 (optStrToJson dom.2.2))
  else (title0, company0, location0)

/-- The 80-item cap (`[:80]`). -/
def cap80 (l : List String) : List String :=
  l.take 80

/-- The tier merge and description-fallback classification of
`parse_html_to_jd` (lines 327-354 of the source): tier-ordered merge with
exact dedup and an 80 cap, then the description-pool fallback. Returns
(responsibilities, requirements, description pool). -/
def jdClassified (d : NormalizedDoc) (L : LdExtract) (S : SeekExtract) :
    List String × List String × List String :=
  let hl := extractListsByHeadings d
  let gl := extractGenericLists d
  let responsibilities0 := cap80 (dedupExact (S.responsibilities ++ L.responsibilities ++
    hl.1 ++ gl.1))
  let requirements0 := cap80 (dedupExact (S.requirements ++ L.requirements ++
    hl.2 ++ gl.2))
  let descLd :=
    if responsibilities0.isEmpty then
      match extractMetaDescription d with
      | some m => L.descriptions ++ [m]
      | none => L.descriptions
    else L.descriptions
  let descAll := descLd ++ S.descriptions
  if responsibilities0.isEmpty ∧ !descAll.isEmpty then
    let bullets := descAll.flatMap (fun dd =>
      (splitOnCharClass ['\n', '•', '-', '*'] [] dd.data).filterMap (fun seg =>
        let t := pyStrip (String.mk seg)
        if t.length > 3 then some t else none))
    let rr := bullets.foldl (fun (rr : List String × List String) b =>
      if containsWordCI respVerbs b then (rr.1 ++ [b], rr.2)
      else if containsWordCI reqTokens b then (rr.1, rr.2 ++ [b])
      else rr) (responsibilities0, requirements0)
    (rr.1, rr.2, descAll)
  else (responsibilities0, requirements0, descAll)

/-- The tail of the list pipeline (lines 355-360 of the source): compound
splitting, question filtering, the final 80 cap, and keyword extraction.
Returns (responsibilities, requirements, keywords). -/
def jdListsPipeline (d : NormalizedDoc) (L : LdExtract) (S : SeekExtract) :
    List String × List String × List String :=
  let c := jdClassified d L S
  let respFinal := cap80 (filterQuestions (splitCompoundItems c.1))
  let reqFinal := cap80 (filterQuestions (splitCompoundItems c.2.1))
  (respFinal, reqFinal, extractKeywords (respFinal ++ reqFinal ++ c.2.2))

/-- The pydantic validation of an `Optional[str]` field of `ParsedJD`
(pydantic v2 rejects non-string, non-None values). -/
def validateOptStr : PyJson → Except Unit (Option String)
  | .null => .ok none
  | .str s => .ok (some s)
  | _ => .error ()

/-- Python `url and "seek.com.au" in url`. -/
def seekFlag (url : Option String) : Bool :=
  match url with
  | some u => pySubstr "seek.com.au" u
  | none => false

/-- The seek embedded-state tier, run only for seek URLs. -/
def seekTier (d : NormalizedDoc) (url : Option String) : SeekExtract :=
  if seekFlag url then parseSeekNextData d.nextData else {}

/-- Python `parse_html_to_jd(html, url)` over the normalized document. -/
def parseHtmlToJd (d : NormalizedDoc) (url : Option String) :
    Except Unit ParsedJD := do
  let L ← extractFromJsonLd d.ldScripts
  let S := seekTier d url
  let sc := scalarCascade d (seekFlag url) L S
  let lists := jdListsPipeline d L S
  let tO ← validateOptStr sc.1
  let cO ← validateOptStr sc.2.1
  let lO ← validateOptStr sc.2.2
  return { title := tO, company := cO, location := lO,
           responsibilities := lists.1, requirements := lists.2.1,
           benefits := [], keywords := lists.2.2 }

/-! ### Claims about the JD extractor -/

lemma pyOrJ_truthy {a b : PyJson} (h : pyTruthy a = true) : pyOrJ a b = a := by
  simp [pyOrJ, h]

lemma pyOrJ_falsy {a b : PyJson} (h : pyTruthy a = false) : pyOrJ a b = b := by
  simp [pyOrJ, h]

lemma pyTruthy_optStrToJson (o : Option String) :
    pyTruthy (optStrToJson o) = pyTruthyOpt o := by
  cases o with
  | none => rfl
  | some s =>
    by_cases hs : s = "" <;> simp [optStrToJson, pyTruthy, pyTruthyOpt, hs]

/-- Unpacking a successful parse: the returned record is built from the
pipeline values, each scalar passing pydantic validation. -/
lemma parseHtmlToJd_ok_fields (d : NormalizedDoc) (url : Option String)
    (jd : ParsedJD) (L : LdExtract)
    (hld : extractFromJsonLd d.ldScripts = Except.ok L)
    (h : parseHtmlToJd d url = Except.ok jd) :
    ∃ tO cO lO,
      validateOptStr (scalarCascade d (seekFlag url) L (seekTier d url)).1 = Except.ok tO
      ∧ validateOptStr (scalarCascade d (seekFlag url) L (seekTier d url)).2.1 = Except.ok cO
      ∧ validateOptStr (scalarCascade d (seekFlag url) L (seekTier d url)).2.2 = Except.ok lO
      ∧ jd = { title := tO, company := cO, location := lO,
               responsibilities := (jdListsPipeline d L (seekTier d url)).1,
               requirements := (jdListsPipeline d L (seekTier d url)).2.1,
               benefits := [],
               keywords := (jdListsPipeline d L (seekTier d url)).2.2 } := by
  unfold parseHtmlToJd at h
  rw [hld] at h
  simp only [bind, Except.bind] at h
  set q := jdListsPipeline d L (seekTier d url) with hq
  rcases hv1 : validateOptStr (scalarCascade d (seekFlag url) L (seekTier d url)).1
    with e1 | tO
  · rw [hv1] at h; cases h
  rw [hv1] at h
  rcases hv2 : validateOptStr (scalarCascade d (seekFlag url) L (seekTier d url)).2.1
    with e2 | cO
  · rw [hv2] at h; cases h
  rw [hv2] at h
  rcases hv3 : validateOptStr (scalarCascade d (seekFlag url) L (seekTier d url)).2.2
    with e3 | lO
  · rw [hv3] at h; cases h
  rw [hv3] at h
  simp only [pure, Except.pure, Except.ok.injEq] at h
  exact ⟨tO, cO, lO, rfl, rfl, rfl, h.symm⟩

lemma jdListsPipeline_len (d : NormalizedDoc) (L : LdExtract) (S : SeekExtract) :
    ((jdListsPipeline d L S).1).length ≤ 80 ∧ ((jdListsPipeline d L S).2.1).length ≤ 80 := by
  constructor <;>
    · simp only [jdListsPipeline, cap80]
      simp [List.length_take]

/-- Concrete documents used by the counterexamples and witnesses below. -/
def docSeekOverLd : NormalizedDoc :=
  { ldScripts := [some (.obj (pyobj
      [("@type", .str "JobPosting"), ("title", .str "Data Analyst")]))],
    nextData := some (.obj (pyobj [("jobTitle", .str "Careers Portal")])),
    h1Text := some "Careers at Acme" }

def docBadAddress : NormalizedDoc :=
  { ldScripts := [some (.obj (pyobj
      [("@type", .str "JobPosting"),
       ("jobLocation", .obj (pyobj
         [("address", .obj (pyobj [("addressLocality", .num 1)]))]))]))] }

def docCaseDup : NormalizedDoc :=
  { ldScripts := [some (.obj (pyobj
      [("@type", .str "JobPosting"),
       ("responsibilities", .arr (pyarr [.str "Develop X", .str "develop X"]))]))] }

def docExactDup : NormalizedDoc :=
  { ldScripts := [some (.obj (pyobj
      [("@type", .str "JobPosting"),
       ("responsibilities", .arr (pyarr
         [.str "develop a;\tdevelop b", .str "develop b"]))]))] }

def docSeekTitleOnly : NormalizedDoc :=
  { nextData := some (.obj (pyobj [("title", .str "Careers Portal")])) }

/-- C5 (counterexample): the extractor CAN raise. A well-formed JSON-LD
JobPosting block whose `addressLocality` is the number `1` makes the
`", ".join(filter(None, [...]))` in `_extract_from_json_ld` raise a
`TypeError`, which nothing catches (only `json.loads` is wrapped). -/
theorem jd_extract_can_raise :
    parseHtmlToJd docBadAddress none = Except.error () := by
  rfl

/-- C5 (amended): a JSON-LD script whose raw text fails to parse
contributes nothing — dropping it leaves the whole extraction unchanged,
and the other tiers still run. -/
theorem jd_failed_script_contributes_nothing (d : NormalizedDoc) (url : Option String) :
    parseHtmlToJd { d with ldScripts := none :: d.ldScripts } url
      = parseHtmlToJd d url := by
  rfl

/-- C8: the string-list classification branch of `_parse_seek_next_data`
is unreachable — `_walk_json` yields only dictionaries, never lists — so an
app-state tree holding a list with one responsibility-classifiable string
and one unclassifiable string produces NO responsibilities, NO
requirements, and (contrary to the claim) NO description-pool entries at
all. -/
theorem seek_list_branch_unreachable :
    parseSeekNextData (some (.obj (pyobj [("items", .arr (pyarr
        [.str "Develop and ship features", .str "Completely generic sentence"]))])))
      = ({} : SeekExtract)
    ∧ containsWordCI respVerbs "Develop and ship features" = true
    ∧ containsWordCI respVerbs "Completely generic sentence" = false
    ∧ containsWordCI reqTokens "Completely generic sentence" = false := by
  refine ⟨?_, ?_, ?_, ?_⟩ <;> decide

/-- C6 (counterexample): the list dedup of the extractor is exact, not
case-insensitive — two responsibilities differing only in case both
survive; and the whitespace-stripping done afterwards by the question
filter can even reintroduce exact duplicates. -/
theorem jd_dedup_not_case_insensitive :
    (parseHtmlToJd docCaseDup none).toOption.map ParsedJD.responsibilities
        = some ["Develop X", "develop X"]
    ∧ pyLower "Develop X" = pyLower "develop X"
    ∧ (parseHtmlToJd docExactDup none).toOption.map ParsedJD.responsibilities
        = some ["develop a", "develop b", "develop b"] := by
  refine ⟨?_, ?_, ?_⟩ <;> rfl

/-- C6 (amended): every successfully extracted record has at most 80
responsibilities and at most 80 requirements. -/
theorem jd_lists_capped (d : NormalizedDoc) (url : Option String) (jd : ParsedJD)
    (L : LdExtract) (hld : extractFromJsonLd d.ldScripts = Except.ok L)
    (h : parseHtmlToJd d url = Except.ok jd) :
    jd.responsibilities.length ≤ 80 ∧ jd.requirements.length ≤ 80 := by
  obtain ⟨tO, cO, lO, _, _, _, hjd⟩ := parseHtmlToJd_ok_fields d url jd L hld h
  subst hjd
  exact ⟨(jdListsPipeline_len d L (seekTier d url)).1,
         (jdListsPipeline_len d L (seekTier d url)).2⟩

theorem jd_lists_capped_witness :
    (({} : ParsedJD).responsibilities).length ≤ 80
    ∧ (({} : ParsedJD).requirements).length ≤ 80 :=
  jd_lists_capped {} none {} {} rfl rfl

lemma scalarCascade_title_of_truthy (d : NormalizedDoc) (flag : Bool)
    (L : LdExtract) (S : SeekExtract)
    (h : pyTruthy (pyOrJ (pyOrJ (optStrToJson S.title) L.title)
      (optStrToJson (extractTitleDoc d))) = true) :
    (scalarCascade d flag L S).1 =
      pyOrJ (pyOrJ (optStrToJson S.title) L.title) (optStrToJson (extractTitleDoc d)) := by
  simp only [scalarCascade]
  split_ifs with hc
  · exact pyOrJ_truthy h
  · rfl

lemma scalarCascade_company_of_truthy (d : NormalizedDoc) (flag : Bool)
    (L : LdExtract) (S : SeekExtract)
    (h : pyTruthy (pyOrJ (pyOrJ (optStrToJson S.company) L.company)
      (optStrToJson (extractCompany d))) = true) :
    (scalarCascade d flag L S).2.1 =
      pyOrJ (pyOrJ (optStrToJson S.company) L.company) (optStrToJson (extractCompany d)) := by
  simp only [scalarCascade]
  split_ifs with hc
  · exact pyOrJ_truthy h
  · rfl

lemma scalarCascade_location_of_truthy (d : NormalizedDoc) (flag : Bool)
    (L : LdExtract) (S : SeekExtract)
    (h : pyTruthy (pyOrJ (optStrToJson S.location) L.location) = true) :
    (scalarCascade d flag L S).2.2 =
      pyOrJ (optStrToJson S.location) L.location := by
  simp only [scalarCascade]
  split_ifs with hc
  · exact pyOrJ_truthy h
  · rfl

lemma pyTruthy_str {s : String} (hs : s ≠ "") : pyTruthy (.str s) = true := by
  simp [pyTruthy, hs]

/-- C2 (amended): the scalar merge order of the extractor is: seek
embedded-state first, then the structured-data (JSON-LD) value, then the
generic page fallback (og:title/`<title>`/`<h1>` for the title,
company-selector heuristics for the company; the location has no generic
fallback); the seek DOM tier runs last, only filling fields the earlier
tiers left falsy. In particular a structured JobPosting title wins over a
page heading only when no seek embedded-state title is present. -/
theorem jd_scalar_tier_precedence (d : NormalizedDoc) (url : Option String)
    (jd : ParsedJD) (L : LdExtract)
    (hld : extractFromJsonLd d.ldScripts = Except.ok L)
    (h : parseHtmlToJd d url = Except.ok jd) :
    (∀ s, (seekTier d url).title = some s → s ≠ "" → jd.title = some s)
    ∧ (pyTruthyOpt (seekTier d url).title = false →
        ∀ s, L.title = PyJson.str s → s ≠ "" → jd.title = some s)
    ∧ (pyTruthyOpt (seekTier d url).title = false → pyTruthy L.title = false →
        ∀ s, extractTitleDoc d = some s → s ≠ "" → jd.title = some s)
    ∧ (∀ s, (seekTier d url).company = some s → s ≠ "" → jd.company = some s)
    ∧ (pyTruthyOpt (seekTier d url).company = false →
        ∀ s, L.company = PyJson.str s → s ≠ "" → jd.company = some s)
    ∧ (pyTruthyOpt (seekTier d url).company = false → pyTruthy L.company = false →
        ∀ s, extractCompany d = some s → s ≠ "" → jd.company = some s)
    ∧ (∀ s, (seekTier d url).location = some s → s ≠ "" → jd.location = some s)
    ∧ (pyTruthyOpt (seekTier d url).location = false →
        ∀ s, L.location = PyJson.str s → s ≠ "" → jd.location = some s) := by
  obtain ⟨tO, cO, lO, hv1, hv2, hv3, hjd⟩ := parseHtmlToJd_ok_fields d url jd L hld h
  subst hjd
  set S := seekTier d url with hS
  refine ⟨?_, ?_, ?_, ?_, ?_, ?_, ?_, ?_⟩
  · intro s hSt hs
    have ht : (scalarCascade d (seekFlag url) L S).1 = .str s := by
      rw [scalarCascade_title_of_truthy]
      · rw [hSt]
        simp only [optStrToJson]
        rw [pyOrJ_truthy (pyTruthy_str hs), pyOrJ_truthy (pyTruthy_str hs)]
      · rw [hSt]
        simp only [optStrToJson]
        rw [pyOrJ_truthy (pyTruthy_str hs), pyOrJ_truthy (pyTruthy_str hs)]
        exact pyTruthy_str hs
    rw [ht] at hv1
    simp only [validateOptStr, Except.ok.injEq] at hv1
    exact hv1.symm
  · intro hSf s hLt hs
    have hfalsy : pyTruthy (optStrToJson S.title) = false := by
      rw [pyTruthy_optStrToJson]; exact hSf
    have ht : (scalarCascade d (seekFlag url) L S).1 = .str s := by
      rw [scalarCascade_title_of_truthy]
      · rw [pyOrJ_falsy hfalsy, hLt, pyOrJ_truthy (pyTruthy_str hs)]
      · rw [pyOrJ_falsy hfalsy, hLt, pyOrJ_truthy (pyTruthy_str hs)]
        exact pyTruthy_str hs
    rw [ht] at hv1
    simp only [validateOptStr, Except.ok.injEq] at hv1
    exact hv1.symm
  · intro hSf hLf s hdoc hs
    have hfalsy : pyTruthy (optStrToJson S.title) = false := by
      rw [pyTruthy_optStrToJson]; exact hSf
    have ht : (scalarCascade d (seekFlag url) L S).1 = .str s := by
      rw [scalarCascade_title_of_truthy]
      · rw [pyOrJ_falsy hfalsy, pyOrJ_falsy hLf, hdoc]
        rfl
      · rw [pyOrJ_falsy hfalsy, pyOrJ_falsy hLf, hdoc]
        simp only [optStrToJson]
        exact pyTruthy_str hs
    rw [ht] at hv1
    simp only [validateOptStr, Except.ok.injEq] at hv1
    exact hv1.symm
  · intro s hSc hs
    have hc : (scalarCascade d (seekFlag url) L S).2.1 = .str s := by
      rw [scalarCascade_company_of_truthy]
      · rw [hSc]
        simp only [optStrToJson]
        rw [pyOrJ_truthy (pyTruthy_str hs), pyOrJ_truthy (pyTruthy_str hs)]
      · rw [hSc]
        simp only [optStrToJson]
        rw [pyOrJ_truthy (pyTruthy_str hs), pyOrJ_truthy (pyTruthy_str hs)]
        exact pyTruthy_str hs
    rw [hc] at hv2
    simp only [validateOptStr, Except.ok.injEq] at hv2
    exact hv2.symm
  · intro hSf s hLc hs
    have hfalsy : pyTruthy (optStrToJson S.company) = false := by
      rw [pyTruthy_optStrToJson]; exact hSf
    have hc : (scalarCascade d (seekFlag url) L S).2.1 = .str s := by
      rw [scalarCascade_company_of_truthy]
      · rw [pyOrJ_falsy hfalsy, hLc, pyOrJ_truthy (pyTruthy_str hs)]
      · rw [pyOrJ_falsy hfalsy, hLc, pyOrJ_truthy (pyTruthy_str hs)]
        exact pyTruthy_str hs
    rw [hc] at hv2
    simp only [validateOptStr, Except.ok.injEq] at hv2
    exact hv2.symm
  · intro hSf hLf s hdoc hs
    have hfalsy : pyTruthy (optStrToJson S.company) = false := by
      rw [pyTruthy_optStrToJson]; exact hSf
    have hc : (scalarCascade d (seekFlag url) L S).2.1 = .str s := by
      rw [scalarCascade_company_of_truthy]
      · rw [pyOrJ_falsy hfalsy, pyOrJ_falsy hLf, hdoc]
        rfl
      · rw [pyOrJ_falsy hfalsy, pyOrJ_falsy hLf, hdoc]
        simp only [optStrToJson]
        exact pyTruthy_str hs
    rw [hc] at hv2
    simp only [validateOptStr, Except.ok.injEq] at hv2
    exact hv2.symm
  · intro s hSl hs
    have hl : (scalarCascade d (seekFlag url) L S).2.2 = .str s := by
      rw [scalarCascade_location_of_truthy]
      · rw [hSl]
        simp only [optStrToJson]
        rw [pyOrJ_truthy (pyTruthy_str hs)]
      · rw [hSl]
        simp only [optStrToJson]
        rw [pyOrJ_truthy (pyTruthy_str hs)]
        exact pyTruthy_str hs
    rw [hl] at hv3
    simp only [validateOptStr, Except.ok.injEq] at hv3
    exact hv3.symm
  · intro hSf s hLl hs
    have hfalsy : pyTruthy (optStrToJson S.location) = false := by
      rw [pyTruthy_optStrToJson]; exact hSf
    have hl : (scalarCascade d (seekFlag url) L S).2.2 = .str s := by
      rw [scalarCascade_location_of_truthy]
      · rw [pyOrJ_falsy hfalsy, hLl]
      · rw [pyOrJ_falsy hfalsy, hLl]
        exact pyTruthy_str hs
    rw [hl] at hv3
    simp only [validateOptStr, Except.ok.injEq] at hv3
    exact hv3.symm

/-- C2 (counterexample): with both a structured JobPosting title
("Data Analyst") and a seek embedded-state title ("Careers Portal")
present, the extractor returns the embedded-state one — the structured-data
tier does NOT have first precedence. -/
theorem jd_seek_beats_structured_data :
    (parseHtmlToJd docSeekOverLd
        (some "https://www.seek.com.au/job/123")).toOption.map ParsedJD.title
      = some (some "Careers Portal")
    ∧ (extractFromJsonLd docSeekOverLd.ldScripts).toOption.map LdExtract.title
      = some (PyJson.str "Data Analyst")
    ∧ "Careers Portal" ≠ "Data Analyst" := by
  refine ⟨rfl, rfl, by decide⟩

theorem jd_scalar_tier_precedence_witness :
    ({ title := some "Careers Portal" } : ParsedJD).title = some "Careers Portal" :=
  (jd_scalar_tier_precedence docSeekTitleOnly (some "https://www.seek.com.au/x")
      { title := some "Careers Portal" } {} rfl rfl).1 "Careers Portal" rfl (by decide)
